import Mathlib

/-!
Verification development for the Void Drifter client/server synchronization
subsystem (src/module4_networking and src/module5_concurrency).

Modelling conventions:
* C fixed-width unsigned integers are modelled as Nat, with explicit `% 256`,
  `% 65536`, `% 2 ^ 32` at the points where the C code narrows a value.
* C `int` fields that the code can drive below zero (player_count,
  bullet_count) are modelled as Int.
* C `float` fields are modelled as Rat.  Every float operation relevant to a
  theorem below (subtracting dt from a cooldown or lifetime, comparing with
  zero) is exact at the concrete values used, so the Rat model and IEEE
  single-precision arithmetic take the same branch there.
* Fixed-size C arrays (players[MAX_PLAYERS], bullets[MAX_SERVER_BULLETS]) are
  modelled as lists; the C `for (i = 0; i < N; i++)` loops become structural
  recursion over the list, carrying the running index where the loop body
  uses it.
* The byte image that `send` transmits for a packed struct is the struct's
  fields at consecutive offsets (no padding, per __attribute__((packed))),
  each multi-byte field laid out in the byte order of the sending host.  The
  encoders below therefore take the host byte order as a parameter: the C
  code contains no htons/htonl, so the in-memory order is what reaches the
  wire.
-/

/-! ## Protocol constants (src/module5_concurrency/protocol.h, server.c) -/

def PROTOCOL_VERSION : Nat := 1

def MAX_PLAYERS : Nat := 4          -- server.c and shared_state.h both use 4

def MAX_SERVER_BULLETS : Nat := 200

def MAX_SYNC_BULLETS : Nat := 50

def MAX_REMOTE_BULLETS : Nat := 50

-- MessageType enum values, in declaration order

def MSG_NONE : Nat := 0

def MSG_CONNECT : Nat := 1

def MSG_CONNECT_ACK : Nat := 2

def MSG_DISCONNECT : Nat := 3

def MSG_PLAYER_INPUT : Nat := 4

def MSG_GAME_STATE : Nat := 5

def MSG_PING : Nat := 6

def MSG_PONG : Nat := 7

def INPUT_UP : Nat := 1

def INPUT_LEFT : Nat := 2

def INPUT_DOWN : Nat := 4

def INPUT_RIGHT : Nat := 8

def INPUT_FIRE : Nat := 16

def WEAPON_TYPE_SPREAD : Nat := 0

def WEAPON_TYPE_RAPID : Nat := 1

def WEAPON_TYPE_LASER : Nat := 2

def BULLET_LIFETIME : Rat := 2

def SPREAD_FIRE_RATE : Rat := 3

def RAPID_FIRE_RATE : Rat := 10

def LASER_FIRE_RATE : Rat := 3 / 2

def GAME_WIDTH : Rat := 800

def GAME_HEIGHT : Rat := 600

/-! ## Wire structs (protocol.h), with their packed sizes

sizeof_X is the byte size of the packed struct X, the literal sum of the
field sizes (uint8_t = 1, uint16_t/int16_t = 2, uint32_t/float = 4,
char[16] = 16). -/

structure MessageHeader where
  type : Nat       -- uint8_t
  length : Nat     -- uint16_t
deriving DecidableEq, Inhabited

def sizeof_MessageHeader : Nat := 1 + 2

structure PlayerInputMsg where
  player_id : Nat    -- uint8_t
  input_flags : Nat  -- uint8_t
  weapon_type : Nat  -- uint8_t
  sequence : Nat     -- uint32_t
deriving DecidableEq, Inhabited

def sizeof_PlayerInputMsg : Nat := 1 + 1 + 1 + 4

structure ConnectMsg where
  version : Nat     -- uint8_t
  name : List Nat   -- char[16]
deriving DecidableEq, Inhabited

def sizeof_ConnectMsg : Nat := 1 + 16

structure ConnectAckMsg where
  success : Nat    -- uint8_t : 1 = connected, 0 = rejected
  player_id : Nat  -- uint8_t
  reason : Nat     -- uint8_t : 0 = full, 1 = version mismatch
deriving DecidableEq, Inhabited

def sizeof_ConnectAckMsg : Nat := 1 + 1 + 1

structure PlayerState where
  player_id : Nat  -- uint8_t
  x : Rat          -- float
  y : Rat          -- float
  vx : Rat         -- float
  vy : Rat         -- float
  health : Int     -- int16_t
  weapon : Nat     -- uint8_t
  flags : Nat      -- uint8_t
deriving DecidableEq, Inhabited

def sizeof_PlayerState : Nat := 1 + 4 + 4 + 4 + 4 + 2 + 1 + 1

structure BulletState where
  owner_id : Nat     -- uint8_t
  x : Rat            -- float
  y : Rat            -- float
  vx : Rat           -- float
  vy : Rat           -- float
  weapon_type : Nat  -- uint8_t
deriving DecidableEq, Inhabited

def sizeof_BulletState : Nat := 1 + 4 + 4 + 4 + 4 + 1

/-- The fixed (non-flexible-array) part of GameStateMsg. -/
structure GameStateMsg where
  tick : Nat           -- uint32_t
  your_sequence : Nat  -- uint32_t
  player_count : Nat   -- uint8_t
  bullet_count : Nat   -- uint8_t
deriving DecidableEq, Inhabited

def sizeof_GameStateMsg : Nat := 4 + 4 + 1 + 1

structure PingMsg where
  timestamp : Nat  -- uint32_t
deriving DecidableEq, Inhabited

def sizeof_PingMsg : Nat := 4

structure PongMsg where
  client_timestamp : Nat  -- uint32_t
  server_timestamp : Nat  -- uint32_t
deriving DecidableEq, Inhabited

def sizeof_PongMsg : Nat := 4 + 4

/-! ## Byte images of the packed structs

The C code transmits each message by handing the packed struct's memory to
send().  A multi-byte integer field therefore appears on the wire in the
byte order of the sending host; `HostOrder` makes that dependence explicit. -/

inductive HostOrder where
  | little : HostOrder
  | big : HostOrder
deriving DecidableEq, Inhabited

/-- Memory image of a uint16_t value on a host with the given byte order. -/
def bytesU16 (e : HostOrder) (n : Nat) : List Nat :=
  let lo := n % 256
  let hi := n / 256 % 256
  match e with
  | .little => [lo, hi]
  | .big => [hi, lo]

/-- Memory image of a uint32_t value on a host with the given byte order. -/
def bytesU32 (e : HostOrder) (n : Nat) : List Nat :=
  let b0 := n % 256
  let b1 := n / 256 % 256
  let b2 := n / 65536 % 256
  let b3 := n / 16777216 % 256
  match e with
  | .little => [b0, b1, b2, b3]
  | .big => [b3, b2, b1, b0]

/-- Memory image of an int16_t value (two's complement). -/
def bytesI16 (e : HostOrder) (z : Int) : List Nat :=
  bytesU16 e (z % 65536).toNat

def encodeMessageHeader (e : HostOrder) (h : MessageHeader) : List Nat :=
  h.type % 256 :: bytesU16 e h.length

def encodePlayerInputMsg (e : HostOrder) (m : PlayerInputMsg) : List Nat :=
  m.player_id % 256 :: m.input_flags % 256 :: m.weapon_type % 256 ::
    bytesU32 e m.sequence

def encodeConnectMsg (m : ConnectMsg) : List Nat :=
  m.version % 256 :: (m.name.map (· % 256) ++ List.replicate 16 0).take 16

def encodeConnectAckMsg (m : ConnectAckMsg) : List Nat :=
  [m.success % 256, m.player_id % 256, m.reason % 256]

def encodePongMsg (e : HostOrder) (m : PongMsg) : List Nat :=
  bytesU32 e m.client_timestamp ++ bytesU32 e m.server_timestamp

/-- Byte image of a PlayerState record.  The IEEE-754 bit pattern of a float
is not reconstructed from the Rat model; the serializer is parameterized by
the 4-byte image `f32` the host produces for a float. -/
def encodePlayerState (e : HostOrder) (f32 : Rat → List Nat)
    (p : PlayerState) : List Nat :=
  p.player_id % 256 :: (f32 p.x ++ f32 p.y ++ f32 p.vx ++ f32 p.vy ++
    bytesI16 e p.health ++ [p.weapon % 256, p.flags % 256])

def encodeBulletState (_e : HostOrder) (f32 : Rat → List Nat)
    (b : BulletState) : List Nat :=
  b.owner_id % 256 :: (f32 b.x ++ f32 b.y ++ f32 b.vx ++ f32 b.vy ++
    [b.weapon_type % 256])

def encodeGameStateMsg (e : HostOrder) (g : GameStateMsg) : List Nat :=
  bytesU32 e g.tick ++ bytesU32 e g.your_sequence ++
    [g.player_count % 256, g.bullet_count % 256]

/-! ## Server data model (server.c) -/

/-- ServerPlayer from server.c.  The sockaddr_in field is omitted (it is
never read back by any modelled operation); the socket is an opaque handle. -/
structure ServerPlayer where
  active : Bool
  socket : Nat
  name : List Nat
  x : Rat
  y : Rat
  vx : Rat
  vy : Rat
  health : Int
  weapon : Nat
  input_flags : Nat
  last_sequence : Nat
  fire_cooldown : Rat
deriving DecidableEq, Inhabited

/-- A ServerPlayer whose memory is all zero (memset in server_init). -/
def zeroServerPlayer : ServerPlayer :=
  { active := false, socket := 0, name := [], x := 0, y := 0, vx := 0,
    vy := 0, health := 0, weapon := 0, input_flags := 0, last_sequence := 0,
    fire_cooldown := 0 }

structure ServerBullet where
  active : Bool
  owner_id : Nat
  x : Rat
  y : Rat
  vx : Rat
  vy : Rat
  weapon_type : Nat
  lifetime : Rat
deriving DecidableEq, Inhabited

def zeroServerBullet : ServerBullet :=
  { active := false, owner_id := 0, x := 0, y := 0, vx := 0, vy := 0,
    weapon_type := 0, lifetime := 0 }

/-- GameServer from server.c.  The listening socket is omitted (no claim
concerns it).  player_count and bullet_count are C ints, hence Int. -/
structure GameServer where
  players : List ServerPlayer
  player_count : Int
  tick : Nat
  bullets : List ServerBullet
  bullet_count : Int
deriving DecidableEq, Inhabited

/-! ## C1: sequence-gated input application
(server.c lines 312-343, MSG_PLAYER_INPUT case of
server_handle_client_message) -/

/-- The MSG_PLAYER_INPUT branch of server_handle_client_message, acting on
one player slot: the input is dropped when `input.sequence <=
player->last_sequence`; otherwise last_sequence, input_flags and weapon are
stored. -/
def apply_player_input (p : ServerPlayer) (input : PlayerInputMsg) :
    ServerPlayer :=
  if input.sequence ≤ p.last_sequence then p
  else { p with last_sequence := input.sequence,
                input_flags := input.input_flags,
                weapon := input.weapon_type }

/-- Folding a whole arrival order of inputs over one slot. -/
def apply_inputs (p : ServerPlayer) (inputs : List PlayerInputMsg) :
    ServerPlayer :=
  inputs.foldl apply_player_input p

/-- The sequences that are accepted (not dropped by the gate), in arrival
order. -/
def accepted_sequences : ServerPlayer → List PlayerInputMsg → List Nat
  | _, [] => []
  | p, i :: rest =>
    if i.sequence ≤ p.last_sequence then accepted_sequences p rest
    else i.sequence :: accepted_sequences (apply_player_input p i) rest

/-- An input message carrying only a sequence number, for the example. -/
def seqOnlyInput (n : Nat) : PlayerInputMsg :=
  { player_id := 0, input_flags := 0, weapon_type := 0, sequence := n }

/-- A freshly connected slot: last_sequence = 0. -/
def freshSlot : ServerPlayer :=
  { zeroServerPlayer with active := true, health := 100 }

/-! ## C4: net_send_all (network.c lines 208-233)

The underlying send() call is modelled by an oracle list of per-call
outcomes: an EINTR failure, a clean close (send returns 0), a hard error
(send returns -1, errno not EINTR), or a partial transmission of n bytes.
The loop consumes one oracle entry per send() call; if the oracle runs out
while the loop still wants to send, the run is undefined (none). -/

inductive SendEvent where
  | intr : SendEvent
  | closed : SendEvent
  | err : SendEvent
  | sent : Nat → SendEvent
deriving DecidableEq, Inhabited

/-- The while loop of net_send_all: `total` is total_sent, `length` the
requested byte count.  Mirrors network.c: continue on EINTR, return -1 on a
hard error, return total_sent when send() reports 0, accumulate partial
sends, stop as soon as total_sent >= length. -/
def net_send_all_go (length : Nat) : List SendEvent → Nat → Option Int
  | [], total => if total < length then none else some (total : Int)
  | ev :: rest, total =>
    if total < length then
      match ev with
      | .intr => net_send_all_go length rest total
      | .err => some (-1)
      | .closed => some (total : Int)
      | .sent n => net_send_all_go length rest (total + n)
    else some (total : Int)

def net_send_all (events : List SendEvent) (length : Nat) : Option Int :=
  net_send_all_go length events 0

/-- The write primitive of claim C4: each call either is interrupted or
transmits a positive number of the bytes still remaining. -/
inductive ValidSends : List SendEvent → Nat → Prop where
  | nil : ∀ rem, ValidSends [] rem
  | intr : ∀ {es rem}, ValidSends es rem → ValidSends (.intr :: es) rem
  | sent : ∀ {es rem n}, 0 < n → n ≤ rem → ValidSends es (rem - n) →
      ValidSends (.sent n :: es) rem

def demoSends : List SendEvent := [.sent 3, .sent 3, .sent 3, .sent 1]

/-! ## Server operations (server.c) -/

/-- The linear find-free-slot scan shared by server_find_free_slot and
server_find_free_bullet: the first index (counting from s) whose element
satisfies p, none when the table is full (the C functions return -1). -/
def find_first_idx {α : Type} (p : α → Bool) : List α → Nat → Option Nat
  | [], _ => none
  | x :: rest, i => if p x then some i else find_first_idx p rest (i + 1)

/-- server_find_free_slot: first index whose slot is not active. -/
def server_find_free_slot (players : List ServerPlayer) : Option Nat :=
  find_first_idx (fun p => !p.active) players 0

/-- server_init (server.c lines 117-134): zeroes the player table and
resets player_count and tick.  Faithful to the C, it does NOT touch the
bullets array or bullet_count: GameServer is a stack local of main(), so
those fields keep whatever value the pre-state holds. -/
def server_init (pre : GameServer) : GameServer :=
  { pre with players := List.replicate MAX_PLAYERS zeroServerPlayer,
             player_count := 0, tick := 0 }

/-- A GameServer whose whole memory is zeroed, used as a concrete start
state in examples. -/
def zeroGameServer : GameServer :=
  { players := List.replicate MAX_PLAYERS zeroServerPlayer,
    player_count := 0, tick := 0,
    bullets := List.replicate MAX_SERVER_BULLETS zeroServerBullet,
    bullet_count := 0 }

/-- Name stored for a new player: the connect message's name if its first
byte is not NUL (strncpy bounded to 15 bytes plus the forced NUL), else the
snprintf default "Player<slot+1>" (ASCII codes; slot+1 is a single digit
here since slot < 4). -/
def connect_player_name (msg : ConnectMsg) (slot : Nat) : List Nat :=
  if msg.name.getD 0 0 ≠ 0 then msg.name.take 15
  else [80, 108, 97, 121, 101, 114, 49 + slot]

/-- server_accept_new_client (server.c lines 173-264), from the point where
the ConnectMsg has been read off the new socket.  Returns the updated
server, the ConnectAckMsg sent back, and whether the new connection was
closed.  Version check comes first (reason 1), then the free-slot check
(reason 0); on success the slot is zeroed and initialised and player_count
is incremented. -/
def server_process_connect (server : GameServer) (sock : Nat)
    (msg : ConnectMsg) : GameServer × ConnectAckMsg × Bool :=
  if msg.version ≠ PROTOCOL_VERSION then
    (server, { success := 0, player_id := 0, reason := 1 }, true)
  else
    match server_find_free_slot server.players with
    | none => (server, { success := 0, player_id := 0, reason := 0 }, true)
    | some slot =>
      let newPlayer : ServerPlayer :=
        { zeroServerPlayer with
            active := true, socket := sock,
            name := connect_player_name msg slot,
            x := 100 + (slot : Rat) * 150, y := 400,
            health := 100, weapon := 0 }
      ({ server with players := server.players.set slot newPlayer,
                     player_count := server.player_count + 1 },
       { success := 1, player_id := slot, reason := 0 }, false)

/-! ## Bullet spawning and firing (server.c lines 377-509) -/

/-- server_find_free_bullet: first inactive bullet slot. -/
def server_find_free_bullet (bullets : List ServerBullet) : Option Nat :=
  find_first_idx (fun b => !b.active) bullets 0

/-- server_spawn_single_bullet: occupy the first free bullet slot (silently
dropping the spawn when the table is full) and increment bullet_count. -/
def server_spawn_single_bullet (server : GameServer) (player_id : Nat)
    (x y vx vy : Rat) (weapon_type : Nat) : GameServer :=
  match server_find_free_bullet server.bullets with
  | none => server
  | some slot =>
    { server with
        bullets := server.bullets.set slot
          { active := true, owner_id := player_id % 256, x := x, y := y,
            vx := vx, vy := vy, weapon_type := weapon_type,
            lifetime := BULLET_LIFETIME },
        bullet_count := server.bullet_count + 1 }

def SPREAD_BULLET_SPEED : Rat := 400

def RAPID_BULLET_SPEED : Rat := 600

def LASER_BULLET_SPEED : Rat := 800

/-- server_spawn_bullet: spawn the bullet pattern of the firing player's
weapon.  The spread pattern evaluates sinf/cosf at the fixed angle
0.2618 rad (and at 0, where they are exactly 0 and 1); those two
transcendental float values are taken as parameters sin15 and cos15 rather
than reconstructed, since no claim depends on their numeric value. -/
def server_spawn_bullet (sin15 cos15 : Rat) (server : GameServer)
    (player_id : Nat) (x y : Rat) : GameServer :=
  let weapon := (server.players.getD player_id default).weapon
  if weapon = WEAPON_TYPE_SPREAD then
    -- three bullets at angles -0.2618, 0, +0.2618
    let s := SPREAD_BULLET_SPEED
    let s1 := server_spawn_single_bullet server player_id
      (x + 10 * (-sin15)) (y - 20) (s * (-sin15)) (-s * cos15) weapon
    let s2 := server_spawn_single_bullet s1 player_id
      (x + 10 * 0) (y - 20) (s * 0) (-s * 1) weapon
    server_spawn_single_bullet s2 player_id
      (x + 10 * sin15) (y - 20) (s * sin15) (-s * cos15) weapon
  else if weapon = WEAPON_TYPE_RAPID then
    server_spawn_single_bullet server player_id x (y - 25) 0
      (-RAPID_BULLET_SPEED) weapon
  else if weapon = WEAPON_TYPE_LASER then
    server_spawn_single_bullet server player_id x (y - 30) 0
      (-LASER_BULLET_SPEED) weapon
  else
    server_spawn_single_bullet server player_id x (y - 20) 0
      (-SPREAD_BULLET_SPEED) weapon

/-- get_weapon_cooldown (server.c lines 481-488): 1 / fire rate, defaulting
to the spread rate for unknown weapon values. -/
def get_weapon_cooldown (weapon_type : Nat) : Rat :=
  if weapon_type = WEAPON_TYPE_SPREAD then 1 / SPREAD_FIRE_RATE
  else if weapon_type = WEAPON_TYPE_RAPID then 1 / RAPID_FIRE_RATE
  else if weapon_type = WEAPON_TYPE_LASER then 1 / LASER_FIRE_RATE
  else 1 / SPREAD_FIRE_RATE

/-- The cooldown field after the per-tick decrement at the top of the
firing loop body: decreased by dt only while still positive. -/
def cooldown_after (p : ServerPlayer) (dt : Rat) : Rat :=
  if 0 < p.fire_cooldown then p.fire_cooldown - dt else p.fire_cooldown

/-- One player's slice of server_handle_firing (server.c lines 493-509),
without the spawn side effect: the updated player and whether a spawn
happens this tick.  The fire condition uses the already-decremented
cooldown, exactly as in the C loop body. -/
def fire_step (p : ServerPlayer) (dt : Rat) : ServerPlayer × Bool :=
  if p.input_flags &&& INPUT_FIRE ≠ 0 ∧ cooldown_after p dt ≤ 0 then
    ({ p with fire_cooldown := get_weapon_cooldown p.weapon }, true)
  else
    ({ p with fire_cooldown := cooldown_after p dt }, false)

/-- One iteration of the server_handle_firing loop, for slot i: skip an
inactive slot; otherwise run the cooldown update and fire check of
fire_step, and on a fire spawn the weapon's bullet pattern at the player's
position before storing the reset cooldown. -/
def fire_player_step (sin15 cos15 dt : Rat) (s : GameServer) (i : Nat) :
    GameServer :=
  if !(s.players.getD i default).active then s
  else if (fire_step (s.players.getD i default) dt).2 then
    { server_spawn_bullet sin15 cos15 s i (s.players.getD i default).x
        (s.players.getD i default).y with
      players :=
        (server_spawn_bullet sin15 cos15 s i (s.players.getD i default).x
          (s.players.getD i default).y).players.set i
          (fire_step (s.players.getD i default) dt).1 }
  else
    { s with players :=
        s.players.set i (fire_step (s.players.getD i default) dt).1 }

/-- server_handle_firing: the loop over all player slots. -/
def server_handle_firing (sin15 cos15 : Rat) (server : GameServer)
    (dt : Rat) : GameServer :=
  (List.range server.players.length).foldl (fire_player_step sin15 cos15 dt)
    server

/-- A connected slot holding the fire button with the rapid weapon
(fire rate 10/s) and an elapsed cooldown. -/
def rapidFirer : ServerPlayer :=
  { freshSlot with weapon := WEAPON_TYPE_RAPID, input_flags := INPUT_FIRE }

/-! ## Shared-state bridge (src/module5_concurrency/shared_state.c)

Only the fields touched by the modelled operations are carried; all
operations hold the single mutex for their whole body, so each is modelled
as one atomic state transformation. -/

structure RemotePlayer where
  active : Bool
  id : Nat
  x : Rat
  y : Rat
  vx : Rat
  vy : Rat
  health : Int
  weapon : Nat
deriving DecidableEq, Inhabited

structure RemoteBullet where
  active : Bool
  owner_id : Nat
  x : Rat
  y : Rat
  vx : Rat
  vy : Rat
  weapon_type : Nat
deriving DecidableEq, Inhabited

structure SharedState where
  my_id : Nat
  players : List RemotePlayer      -- RemotePlayer players[MAX_PLAYERS]
  player_count : Int
  server_tick : Nat
  bullets : List RemoteBullet      -- RemoteBullet bullets[MAX_REMOTE_BULLETS]
  bullet_count : Int
  input_to_send : Nat
  weapon_type : Nat
  input_sequence : Nat
  packets_sent : Nat
  packets_received : Nat
deriving DecidableEq, Inhabited

/-- The two loops of shared_state_update_players fused into one pass over
the slot array: the C first clears every active flag, then overwrites
slots 0..copied-1 with the incoming records (forcing active = 1).  A slot
index below `copied` therefore holds the incoming record with active set;
every other slot keeps its old contents with active cleared.  The incoming
read players[i] is modelled by getD (the theorem's hypothesis keeps every
access in bounds, as the C caller does). -/
def write_player_slots (incoming : List RemotePlayer) (copied : Nat) :
    List RemotePlayer → Nat → List RemotePlayer
  | [], _ => []
  | p :: rest, i =>
    (if i < copied then { incoming.getD i default with active := true }
     else { p with active := false }) ::
      write_player_slots incoming copied rest (i + 1)

/-- shared_state_update_players (shared_state.c lines 165-188): clamp the
incoming count to MAX_PLAYERS, rewrite the slot array, store the clamped
count and the server tick, bump packets_received. -/
def shared_state_update_players (st : SharedState)
    (incoming : List RemotePlayer) (count : Nat) (server_tick : Nat) :
    SharedState :=
  let copied := if MAX_PLAYERS < count then MAX_PLAYERS else count
  { st with players := write_player_slots incoming copied st.players 0,
            player_count := (copied : Int),
            server_tick := server_tick,
            packets_received := st.packets_received + 1 }

/-- shared_state_copy_players (shared_state.c lines 203-215): copy the
whole slot array to the caller's buffer and return the stored count. -/
def shared_state_copy_players (st : SharedState) :
    List RemotePlayer × Int :=
  (st.players, st.player_count)

/-- A shared state whose slot array has its real 4-slot size. -/
def demoSharedState : SharedState :=
  { my_id := 0, players := List.replicate MAX_PLAYERS default,
    player_count := 0, server_tick := 0, bullets := [], bullet_count := 0,
    input_to_send := 0, weapon_type := 0, input_sequence := 0,
    packets_sent := 0, packets_received := 0 }

/-! ## Message send sites and the snapshot builder (server.c, network_client.c)

Each send site builds a MessageHeader whose length field is the sizeof of
the payload struct it sends, then hands both structs to net_send_all. -/

def ack_message (ack : ConnectAckMsg) : MessageHeader × List Nat :=
  ({ type := MSG_CONNECT_ACK, length := sizeof_ConnectAckMsg },
   encodeConnectAckMsg ack)

def input_message (e : HostOrder) (m : PlayerInputMsg) :
    MessageHeader × List Nat :=
  ({ type := MSG_PLAYER_INPUT, length := sizeof_PlayerInputMsg },
   encodePlayerInputMsg e m)

def connect_message (m : ConnectMsg) : MessageHeader × List Nat :=
  ({ type := MSG_CONNECT, length := sizeof_ConnectMsg }, encodeConnectMsg m)

def pong_message (e : HostOrder) (m : PongMsg) : MessageHeader × List Nat :=
  ({ type := MSG_PONG, length := sizeof_PongMsg }, encodePongMsg e m)

/-- The bullet-counting loop at the top of server_send_state: counts active
bullet slots, stopping once the count reaches MAX_SYNC_BULLETS. -/
def snapshot_bullet_count_go : List ServerBullet → Nat → Nat
  | [], acc => acc
  | b :: rest, acc =>
    if MAX_SYNC_BULLETS ≤ acc then acc
    else snapshot_bullet_count_go rest (if b.active then acc + 1 else acc)

def snapshot_bullet_count (bullets : List ServerBullet) : Nat :=
  snapshot_bullet_count_go bullets 0

/-- The player fill loop of server_send_state: each active slot is emitted
together with its slot index (which becomes the wire player_id). -/
def collect_player_slots : List ServerPlayer → Nat → List (Nat × ServerPlayer)
  | [], _ => []
  | p :: rest, i =>
    if p.active then (i, p) :: collect_player_slots rest (i + 1)
    else collect_player_slots rest (i + 1)

/-- The bullet fill loop of server_send_state: active slots in index order,
until the remaining budget (bullet_count computed above) is exhausted. -/
def collect_included_bullets : List ServerBullet → Nat → List ServerBullet
  | [], _ => []
  | b :: rest, cap =>
    if cap = 0 then []
    else if b.active then b :: collect_included_bullets rest (cap - 1)
    else collect_included_bullets rest cap

/-- The PlayerState record server_send_state writes for slot i. -/
def playerStateOfSlot (ip : Nat × ServerPlayer) : PlayerState :=
  { player_id := ip.1 % 256, x := ip.2.x, y := ip.2.y, vx := ip.2.vx,
    vy := ip.2.vy, health := ip.2.health, weapon := ip.2.weapon,
    flags := if ip.2.input_flags &&& INPUT_FIRE ≠ 0 then 1 else 0 }

/-- The BulletState record server_send_state writes for a bullet slot. -/
def bulletStateOf (b : ServerBullet) : BulletState :=
  { owner_id := b.owner_id, x := b.x, y := b.y, vx := b.vx, vy := b.vy,
    weapon_type := b.weapon_type }

def snapshot_players (server : GameServer) : List (Nat × ServerPlayer) :=
  collect_player_slots server.players 0

def snapshot_bullets (server : GameServer) : List ServerBullet :=
  collect_included_bullets server.bullets
    (snapshot_bullet_count server.bullets)

/-- The header server_send_state fills in: type MSG_GAME_STATE and
state_size = sizeof(GameStateMsg) + player_count * sizeof(PlayerState) +
bullet_count * sizeof(BulletState), narrowed to the uint16_t length
field. -/
def server_snapshot_header (server : GameServer) : MessageHeader :=
  { type := MSG_GAME_STATE,
    length := (sizeof_GameStateMsg +
      server.player_count.toNat * sizeof_PlayerState +
      snapshot_bullet_count server.bullets * sizeof_BulletState) % 65536 }

/-- The payload bytes server_send_state assembles after the header: the
fixed GameStateMsg part, then one PlayerState per active slot, then the
included BulletState records.  (The C writes the bullet block at offset
sizeof(GameStateMsg) + player_count*sizeof(PlayerState); under the
player_count invariant that is exactly the end of the player block, which
is how this concatenation models it.)  your_sequence is 0 here; it is
overwritten per recipient before each send. -/
def server_snapshot_payload (e : HostOrder) (f32 : Rat → List Nat)
    (server : GameServer) : List Nat :=
  encodeGameStateMsg e
    { tick := server.tick, your_sequence := 0,
      player_count := server.player_count.toNat,
      bullet_count := snapshot_bullet_count server.bullets } ++
  (snapshot_players server).flatMap
    (fun ip => encodePlayerState e f32 (playerStateOfSlot ip)) ++
  (snapshot_bullets server).flatMap
    (fun b => encodeBulletState e f32 (bulletStateOf b))

def demoF32 : Rat → List Nat := fun _ => [0, 0, 0, 0]

/-- A server with one active player and no bullets, for the C3 witness. -/
def demoSnapshotServer : GameServer :=
  { players := [{ zeroServerPlayer with active := true }, zeroServerPlayer,
      zeroServerPlayer, zeroServerPlayer],
    player_count := 1, tick := 0,
    bullets := List.replicate MAX_SERVER_BULLETS zeroServerBullet,
    bullet_count := 0 }

/-! ## C5: the per-client send loop of server_send_state
(server.c lines 647-662)

The outcome of net_send_all for the client in slot i is abstracted by
sendOk i (true: the full buffer was sent; false: it returned -1).  The loop
walks the slot table in index order; an active slot is always attempted;
on failure that slot alone is freed and player_count decremented, and the
loop continues with the next slot. -/

def broadcast_go (sendOk : Nat → Bool) :
    List ServerPlayer → Nat → Int →
      List ServerPlayer × Int × List (Nat × Nat)
  | [], _, cnt => ([], cnt, [])
  | p :: rest, i, cnt =>
    if p.active then
      if sendOk i then
        let r := broadcast_go sendOk rest (i + 1) cnt
        (p :: r.1, r.2.1, (i, p.last_sequence) :: r.2.2)
      else
        let r := broadcast_go sendOk rest (i + 1) (cnt - 1)
        ({ p with active := false } :: r.1, r.2.1, r.2.2)
    else
      let r := broadcast_go sendOk rest (i + 1) cnt
      (p :: r.1, r.2.1, r.2.2)

/-- The send loop over the whole server: returns the updated server and
the list of successful sends, each recorded as (slot index, the
last-accepted sequence echoed to that recipient in your_sequence). -/
def server_broadcast (server : GameServer) (sendOk : Nat → Bool) :
    GameServer × List (Nat × Nat) :=
  let r := broadcast_go sendOk server.players 0 server.player_count
  ({ server with players := r.1, player_count := r.2.1 }, r.2.2)

/-- Two connected players for the C5 witness; the one in slot 1 will fail
its send. -/
def demoBroadcastServer : GameServer :=
  { players := [{ freshSlot with last_sequence := 5, socket := 10 },
      { freshSlot with last_sequence := 9, socket := 11 },
      zeroServerPlayer, zeroServerPlayer],
    player_count := 2, tick := 0,
    bullets := List.replicate MAX_SERVER_BULLETS zeroServerBullet,
    bullet_count := 0 }

def demoSendOk : Nat → Bool := fun i => decide (i ≠ 1)

/-! ## C8: which bullets a snapshot includes

The counterexample state below is the kind of state slot reuse produces:
server_find_free_bullet always picks the lowest free index, so after an
early bullet dies and a new one is spawned, the newest bullet sits at
slot 0 while older live bullets occupy slots 1..51.  (Such a state arises
from 52 spawns, one tick in which the slot-0 bullet leaves the playfield,
and one further spawn.)  With 51 occupied slots the fill loop takes slots
0..49, so the newest bullet (slot 0, full lifetime) is included while an
older one (slot 50, lower remaining lifetime) is truncated. -/

/-- The freshly respawned bullet sitting in reused slot 0. -/
def cexNewBullet : ServerBullet :=
  { active := true, owner_id := 2, x := 500, y := 300, vx := 0, vy := 0,
    weapon_type := 1, lifetime := 2 }

/-- One of the older bullets (one tick old: lifetime 1), in slots 1-49. -/
def cexMidBullet : ServerBullet :=
  { active := true, owner_id := 0, x := 120, y := 300, vx := 0, vy := 0,
    weapon_type := 1, lifetime := 1 }

/-- The older bullet in slot 50 that the cap truncates. -/
def cexOldBullet : ServerBullet :=
  { active := true, owner_id := 3, x := 150, y := 300, vx := 0, vy := 0,
    weapon_type := 1, lifetime := 1 }

def cexBullets : List ServerBullet :=
  cexNewBullet ::
    (List.replicate 49 cexMidBullet ++
      cexOldBullet :: List.replicate 149 zeroServerBullet)

def cexServer : GameServer :=
  { players := [freshSlot, zeroServerPlayer, zeroServerPlayer,
      zeroServerPlayer],
    player_count := 1, tick := 40,
    bullets := cexBullets, bullet_count := 51 }

/-! ## C10: player_count / bullet_count invariants (server.c)

Remaining server operations, and the invariant tying the two count fields
to the number of occupied slots. -/

/-- One bullet's slice of server_update_bullets (lines 456-476): advance by
velocity, decrement lifetime. -/
def update_bullet (b : ServerBullet) (dt : Rat) : ServerBullet :=
  { b with x := b.x + b.vx * dt, y := b.y + b.vy * dt,
           lifetime := b.lifetime - dt }

/-- Whether the updated bullet is removed: lifetime expired or position
outside the playfield. -/
def bullet_expired (b : ServerBullet) : Prop :=
  b.lifetime ≤ 0 ∨ b.x < 0 ∨ GAME_WIDTH < b.x ∨ b.y < 0 ∨ GAME_HEIGHT < b.y

instance (b : ServerBullet) : Decidable (bullet_expired b) := by
  unfold bullet_expired
  infer_instance

/-- The loop of server_update_bullets: returns the updated slot array and
how many slots were freed (the C decrements bullet_count in place once per
freed slot). -/
def server_update_bullets_go (dt : Rat) :
    List ServerBullet → List ServerBullet × Int
  | [] => ([], 0)
  | b :: rest =>
    let r := server_update_bullets_go dt rest
    if !b.active then (b :: r.1, r.2)
    else
      let b2 := update_bullet b dt
      if bullet_expired b2 then ({ b2 with active := false } :: r.1, r.2 + 1)
      else (b2 :: r.1, r.2)

def server_update_bullets (server : GameServer) (dt : Rat) : GameServer :=
  let r := server_update_bullets_go dt server.bullets
  { server with bullets := r.1, bullet_count := server.bullet_count - r.2 }

/-- The per-client receive outcomes server_handle_client_message
distinguishes (lines 274-372): recv returning 0 (peer closed), a hard
error, EAGAIN (no data), a partial header, or a complete header followed
by a fully read payload of the given kind. -/
inductive ClientEvent where
  | recvClosed : ClientEvent
  | recvErr : ClientEvent
  | recvNoData : ClientEvent
  | recvPartialHeader : ClientEvent
  | input : PlayerInputMsg → ClientEvent
  | disconnect : ClientEvent
  | ping : Nat → ClientEvent
  | unknown : Nat → ClientEvent
deriving DecidableEq, Inhabited

/-- The disconnect bookkeeping used on every error/close path: clear the
slot's active flag and decrement player_count. -/
def server_free_slot (server : GameServer) (i : Nat) : GameServer :=
  { server with
      players := server.players.set i
        { server.players.getD i default with active := false },
      player_count := server.player_count - 1 }

/-- server_handle_client_message: early-out on an inactive slot, then act
on the receive outcome.  Ping replies and log output do not change server
state; the input path is apply_player_input. -/
def server_handle_client_message (server : GameServer) (player_id : Nat)
    (ev : ClientEvent) : GameServer :=
  if !(server.players.getD player_id default).active then server
  else
    match ev with
    | .recvClosed => server_free_slot server player_id
    | .recvErr => server_free_slot server player_id
    | .recvNoData => server
    | .recvPartialHeader => server
    | .input m =>
      { server with
          players := server.players.set player_id
            (apply_player_input (server.players.getD player_id default) m) }
    | .disconnect => server_free_slot server player_id
    | .ping _ => server
    | .unknown _ => server

/-- The invariant of claim C10: each count field equals the number of
occupied slots in its table. -/
def ServerCountsInv (server : GameServer) : Prop :=
  server.player_count = (server.players.countP (·.active) : Int) ∧
  server.bullet_count = (server.bullets.countP (·.active) : Int)

instance (server : GameServer) : Decidable (ServerCountsInv server) := by
  unfold ServerCountsInv
  infer_instance

/-- A GameServer holding the arbitrary garbage a freshly declared stack
variable may contain: here bullet_count = 7 with no bullet slot occupied.
GameServer is a local of main() and server_init is the only initialisation
it receives. -/
def garbageStartServer : GameServer :=
  { players := [], player_count := -3, tick := 77,
    bullets := List.replicate MAX_SERVER_BULLETS zeroServerBullet,
    bullet_count := 7 }

/-! ## Theorems -/

/-- C1: an input is applied (flags and weapon stored, last-accepted sequence
updated) exactly when its sequence is strictly greater than the slot's
last-accepted sequence; otherwise the slot is left unchanged.  For a slot
starting at sequence 0 receiving [5, 3, 7, 7, 6], exactly 5 and 7 are
accepted, in arrival order, and last_sequence ends at 7. -/
theorem player_input_sequence_gate :
    (∀ (p : ServerPlayer) (i : PlayerInputMsg),
      (p.last_sequence < i.sequence →
        apply_player_input p i =
          { p with last_sequence := i.sequence,
                   input_flags := i.input_flags,
                   weapon := i.weapon_type }) ∧
      (i.sequence ≤ p.last_sequence → apply_player_input p i = p)) ∧
    accepted_sequences freshSlot
      ((([5, 3, 7, 7, 6] : List Nat)).map seqOnlyInput) = [5, 7] ∧
    (apply_inputs freshSlot
      ((([5, 3, 7, 7, 6] : List Nat)).map seqOnlyInput)).last_sequence = 7 := by
  refine ⟨fun p i => ⟨fun h => ?_, fun h => ?_⟩, by decide, by decide⟩
  · unfold apply_player_input
    rw [if_neg (by omega)]
  · unfold apply_player_input
    rw [if_pos h]

/-- Witness for C1 at concrete inputs: sequence 5 is applied to a fresh
slot, and sequence 3 is then discarded. -/
theorem player_input_sequence_gate_witness :
    apply_player_input freshSlot (seqOnlyInput 5) =
      { freshSlot with last_sequence := 5, input_flags := 0, weapon := 0 } ∧
    apply_player_input { freshSlot with last_sequence := 5 }
        (seqOnlyInput 3) =
      { freshSlot with last_sequence := 5 } :=
  ⟨(player_input_sequence_gate.1 freshSlot (seqOnlyInput 5)).1 (by decide),
   (player_input_sequence_gate.1 { freshSlot with last_sequence := 5 }
     (seqOnlyInput 3)).2 (by decide)⟩

theorem net_send_all_go_valid (length : Nat) :
    ∀ (es : List SendEvent) (total : Nat) (r : Int),
      ValidSends es (length - total) → total ≤ length →
      net_send_all_go length es total = some r → r = (length : Int) := by
  intro es
  induction es with
  | nil =>
    intro total r _ hle h
    unfold net_send_all_go at h
    by_cases hlt : total < length
    · simp [hlt] at h
    · rw [if_neg hlt] at h
      have h2 := Option.some.inj h
      omega
  | cons ev rest ih =>
    intro total r hv hle h
    cases hv with
    | intr hv' =>
      unfold net_send_all_go at h
      by_cases hlt : total < length
      · rw [if_pos hlt] at h
        exact ih total r hv' hle h
      · rw [if_neg hlt] at h
        have h2 := Option.some.inj h
        omega
    | sent hn hrem hv' =>
      rename_i n
      unfold net_send_all_go at h
      by_cases hlt : total < length
      · rw [if_pos hlt] at h
        refine ih (total + n) r ?_ (by omega) h
        have heq : length - (total + n) = length - total - n := by omega
        rw [heq]
        exact hv'
      · rw [if_neg hlt] at h
        have h2 := Option.some.inj h
        omega

theorem net_send_all_zero_len (es : List SendEvent) (total : Nat) :
    net_send_all_go 0 es total = some (total : Int) := by
  cases es <;> simp [net_send_all_go]

/-- C4: against any write primitive that, on each call, transmits a
positive number of the remaining bytes or fails with EINTR, net_send_all
returns N whenever its loop completes; an interrupted call is retried
transparently (it leaves the result unchanged); and a transport accepting
only 3 bytes per call transmits all 10 bytes of a 10-byte payload. -/
theorem net_send_all_sends_all :
    (∀ (es : List SendEvent) (N : Nat) (r : Int),
       ValidSends es N → net_send_all es N = some r → r = (N : Int)) ∧
    (∀ (es : List SendEvent) (N : Nat),
       net_send_all (.intr :: es) N = net_send_all es N) ∧
    net_send_all [.sent 3, .sent 3, .sent 3, .sent 1] 10 = some 10 := by
  refine ⟨?_, ?_, by decide⟩
  · intro es N r hv h
    exact net_send_all_go_valid N es 0 r (by simpa using hv) (Nat.zero_le N) h
  · intro es N
    cases N with
    | zero => rw [net_send_all, net_send_all, net_send_all_zero_len,
        net_send_all_zero_len]
    | succ m =>
      show net_send_all_go (m + 1) (SendEvent.intr :: es) 0 =
        net_send_all_go (m + 1) es 0
      conv_lhs => rw [net_send_all_go]
      rw [if_pos (Nat.succ_pos m)]

/-- Witness for C4: the 3-bytes-per-call oracle for a 10-byte payload is a
valid write primitive, and the theorem instantiated there yields 10. -/
theorem net_send_all_sends_all_witness :
    ValidSends demoSends 10 ∧ (10 : Int) = ((10 : Nat) : Int) := by
  have hv : ValidSends demoSends 10 := by
    refine .sent (by decide) (by decide) ?_
    refine .sent (by decide) (by decide) ?_
    refine .sent (by decide) (by decide) ?_
    refine .sent (by decide) (by decide) ?_
    exact .nil 0
  exact ⟨hv, net_send_all_sends_all.1 demoSends 10 10 hv (by decide)⟩

/-- C6: a handshake whose protocol version differs from the server's is
answered with ConnectAck{success = 0, reason = 1 (version mismatch)}, the
connection is closed, and the server state — player slot table and active
player count — is exactly what it was before the attempt. -/
theorem version_mismatch_consumes_no_slot :
    ∀ (server : GameServer) (sock : Nat) (msg : ConnectMsg),
      msg.version ≠ PROTOCOL_VERSION →
      server_process_connect server sock msg =
        (server, { success := 0, player_id := 0, reason := 1 }, true) := by
  intro server sock msg h
  unfold server_process_connect
  rw [if_pos h]

/-- Witness for C6: a version-2 connect against the zeroed server is
rejected with reason 1 and leaves the server untouched. -/
theorem version_mismatch_consumes_no_slot_witness :
    server_process_connect zeroGameServer 7 { version := 2, name := [] } =
      (zeroGameServer, { success := 0, player_id := 0, reason := 1 },
       true) :=
  version_mismatch_consumes_no_slot zeroGameServer 7
    { version := 2, name := [] } (by decide)

/-- C7: a slot fires exactly when its latest input includes the Fire flag
and its (just-decremented) cooldown has reached or passed zero; a fire
resets the cooldown to 1 / fireRate of the slot's weapon.  For the Rapid
weapon (rate 10/s) stepped at dt = 0.05 s: a fresh fire succeeds, the next
attempt 0.05 s later is refused, and the attempt after a total of 0.1 s
succeeds.  (At these concrete values the float subtractions in the C code
are exact, so the Rat model takes the same branches.) -/
theorem rapid_fire_first : fire_step rapidFirer (1 / 20) =
    ({ rapidFirer with fire_cooldown := 1 / 10 }, true) := by
  unfold fire_step cooldown_after get_weapon_cooldown
  norm_num [rapidFirer, freshSlot, zeroServerPlayer, INPUT_FIRE,
    WEAPON_TYPE_RAPID, WEAPON_TYPE_SPREAD, RAPID_FIRE_RATE]

theorem rapid_fire_second :
    fire_step { rapidFirer with fire_cooldown := 1 / 10 } (1 / 20) =
      ({ rapidFirer with fire_cooldown := 1 / 20 }, false) := by
  unfold fire_step cooldown_after
  norm_num [rapidFirer, freshSlot, zeroServerPlayer, INPUT_FIRE]

theorem rapid_fire_third :
    fire_step { rapidFirer with fire_cooldown := 1 / 20 } (1 / 20) =
      ({ rapidFirer with fire_cooldown := 1 / 10 }, true) := by
  unfold fire_step cooldown_after get_weapon_cooldown
  norm_num [rapidFirer, freshSlot, zeroServerPlayer, INPUT_FIRE,
    WEAPON_TYPE_RAPID, WEAPON_TYPE_SPREAD, RAPID_FIRE_RATE]

theorem firing_cooldown_gate :
    (∀ (p : ServerPlayer) (dt : Rat),
      ((fire_step p dt).2 = true ↔
        (p.input_flags &&& INPUT_FIRE ≠ 0 ∧ cooldown_after p dt ≤ 0)) ∧
      ((fire_step p dt).2 = true →
        (fire_step p dt).1.fire_cooldown = get_weapon_cooldown p.weapon)) ∧
    get_weapon_cooldown WEAPON_TYPE_RAPID = 1 / RAPID_FIRE_RATE ∧
    (fire_step rapidFirer (1 / 20)).2 = true ∧
    (fire_step (fire_step rapidFirer (1 / 20)).1 (1 / 20)).2 = false ∧
    (fire_step (fire_step (fire_step rapidFirer (1 / 20)).1 (1 / 20)).1
      (1 / 20)).2 = true := by
  refine ⟨fun p dt => ⟨?_, ?_⟩,
    by norm_num [get_weapon_cooldown, WEAPON_TYPE_RAPID, WEAPON_TYPE_SPREAD],
    by rw [rapid_fire_first],
    by rw [rapid_fire_first, rapid_fire_second],
    by rw [rapid_fire_first, rapid_fire_second, rapid_fire_third]⟩
  · unfold fire_step
    by_cases h : p.input_flags &&& INPUT_FIRE ≠ 0 ∧ cooldown_after p dt ≤ 0
    · simp [h]
    · simp [h]
  · unfold fire_step
    by_cases h : p.input_flags &&& INPUT_FIRE ≠ 0 ∧ cooldown_after p dt ≤ 0
    · simp [h]
    · simp [h]

/-- Witness for C7: the theorem instantiated on the concrete rapid-weapon
slot yields the 1/10 s cooldown reset. -/
theorem firing_cooldown_gate_witness :
    (fire_step rapidFirer (1 / 20)).1.fire_cooldown =
      get_weapon_cooldown rapidFirer.weapon :=
  (firing_cooldown_gate.1 rapidFirer (1 / 20)).2 (by rw [rapid_fire_first])

theorem write_player_slots_length (incoming : List RemotePlayer)
    (copied : Nat) :
    ∀ (l : List RemotePlayer) (i : Nat),
      (write_player_slots incoming copied l i).length = l.length := by
  intro l
  induction l with
  | nil => intro i; rfl
  | cons p rest ih =>
    intro i
    unfold write_player_slots
    simp [ih]

theorem write_player_slots_getD (incoming : List RemotePlayer)
    (copied : Nat) :
    ∀ (l : List RemotePlayer) (i k : Nat), k < l.length →
      (write_player_slots incoming copied l i).getD k default =
        if i + k < copied then
          { incoming.getD (i + k) default with active := true }
        else { l.getD k default with active := false } := by
  intro l
  induction l with
  | nil => intro i k hk; simp at hk
  | cons p rest ih =>
    intro i k hk
    unfold write_player_slots
    cases k with
    | zero => simp
    | succ m =>
      have hm : m < rest.length := by simpa using hk
      have := ih (i + 1) m hm
      simp only [List.getD_cons_succ]
      rw [this]
      have harith : i + 1 + m = i + (m + 1) := by omega
      rw [harith]

/-- C9: for every non-negative count, update_players touches only the
fixed 4-slot array (its length is preserved), marks exactly the first
min(count, 4) slots active — filled from the incoming records — clears
every other slot's active flag, stores min(count, 4) as the player count,
and a subsequent copy_players returns that same clamped count. -/
theorem update_players_clamps :
    ∀ (st : SharedState) (incoming : List RemotePlayer)
      (count tick : Nat),
      st.players.length = MAX_PLAYERS →
      min count MAX_PLAYERS ≤ incoming.length →
      let st' := shared_state_update_players st incoming count tick
      st'.players.length = MAX_PLAYERS ∧
      st'.player_count = (min count MAX_PLAYERS : Int) ∧
      (∀ k, k < min count MAX_PLAYERS →
        st'.players.getD k default =
          { incoming.getD k default with active := true }) ∧
      (∀ k, min count MAX_PLAYERS ≤ k → k < MAX_PLAYERS →
        st'.players.getD k default =
          { st.players.getD k default with active := false }) ∧
      (∀ k, k < MAX_PLAYERS →
        ((st'.players.getD k default).active = true ↔
          k < min count MAX_PLAYERS)) ∧
      (shared_state_copy_players st').2 = (min count MAX_PLAYERS : Int) := by
  intro st incoming count tick hlen hin
  have hcopied : (if MAX_PLAYERS < count then MAX_PLAYERS else count) =
      min count MAX_PLAYERS := by
    by_cases h : MAX_PLAYERS < count
    · simp [h, Nat.min_eq_right (Nat.le_of_lt h)]
    · simp [h, Nat.min_eq_left (Nat.le_of_not_lt h)]
  constructor
  · rw [shared_state_update_players]
    simpa [write_player_slots_length] using hlen
  constructor
  · rw [shared_state_update_players]
    simp [hcopied]
  constructor
  · intro k hk
    rw [shared_state_update_players]
    simp only
    rw [write_player_slots_getD _ _ _ 0 k (by omega), hcopied]
    simp only [Nat.zero_add]
    rw [if_pos hk]
  constructor
  · intro k hk hk4
    rw [shared_state_update_players]
    simp only
    rw [write_player_slots_getD _ _ _ 0 k (by omega), hcopied]
    simp only [Nat.zero_add]
    rw [if_neg (by omega)]
  constructor
  · intro k hk4
    rw [shared_state_update_players]
    simp only
    rw [write_player_slots_getD _ _ _ 0 k (by omega), hcopied]
    simp only [Nat.zero_add]
    by_cases hk : k < min count MAX_PLAYERS
    · simp [hk]
    · simp [hk]
  · rw [shared_state_update_players, shared_state_copy_players]
    simp [hcopied]

/-- Witness for C9: a count of 7 against the 4-slot array is clamped to 4,
and copy_players then reports 4. -/
theorem update_players_clamps_witness :
    (shared_state_update_players demoSharedState
        (List.replicate 7 default) 7 11).player_count = ((4 : Nat) : Int) ∧
    (shared_state_copy_players (shared_state_update_players demoSharedState
        (List.replicate 7 default) 7 11)).2 = ((4 : Nat) : Int) := by
  have h := update_players_clamps demoSharedState (List.replicate 7 default)
    7 11 (by simp [demoSharedState, MAX_PLAYERS]) (by simp [MAX_PLAYERS])
  refine ⟨?_, ?_⟩
  · have h2 := h.2.1
    simpa [MAX_PLAYERS] using h2
  · have h2 := h.2.2.2.2.2
    simpa [MAX_PLAYERS] using h2

/-! ### Length lemmas for the encoders -/

theorem bytesU16_length (e : HostOrder) (n : Nat) :
    (bytesU16 e n).length = 2 := by
  cases e <;> rfl

theorem bytesU32_length (e : HostOrder) (n : Nat) :
    (bytesU32 e n).length = 4 := by
  cases e <;> rfl

theorem encodeMessageHeader_length (e : HostOrder) (h : MessageHeader) :
    (encodeMessageHeader e h).length = sizeof_MessageHeader := by
  simp [encodeMessageHeader, bytesU16_length, sizeof_MessageHeader]

theorem encodeGameStateMsg_length (e : HostOrder) (g : GameStateMsg) :
    (encodeGameStateMsg e g).length = sizeof_GameStateMsg := by
  simp [encodeGameStateMsg, bytesU32_length, sizeof_GameStateMsg]

theorem encodePlayerState_length (e : HostOrder) (f32 : Rat → List Nat)
    (hf : ∀ q, (f32 q).length = 4) (p : PlayerState) :
    (encodePlayerState e f32 p).length = sizeof_PlayerState := by
  simp [encodePlayerState, bytesI16, bytesU16_length, hf, sizeof_PlayerState]

theorem encodeBulletState_length (e : HostOrder) (f32 : Rat → List Nat)
    (hf : ∀ q, (f32 q).length = 4) (b : BulletState) :
    (encodeBulletState e f32 b).length = sizeof_BulletState := by
  simp [encodeBulletState, hf, sizeof_BulletState]

theorem flatMap_const_length {α β : Type} (enc : α → List β) (c : Nat)
    (henc : ∀ x, (enc x).length = c) :
    ∀ l : List α, (l.flatMap enc).length = l.length * c := by
  intro l
  induction l with
  | nil => simp
  | cons x rest ih =>
    simp [List.flatMap_cons, henc, ih, Nat.succ_mul, Nat.add_comm]

theorem collect_player_slots_players :
    ∀ (l : List ServerPlayer) (i : Nat),
      (collect_player_slots l i).map (·.2) = l.filter (·.active) := by
  intro l
  induction l with
  | nil => intro i; rfl
  | cons p rest ih =>
    intro i
    unfold collect_player_slots
    by_cases hp : p.active
    · simp [hp, List.filter_cons, ih]
    · simp [hp, List.filter_cons, ih]

theorem collect_player_slots_length :
    ∀ (l : List ServerPlayer) (i : Nat),
      (collect_player_slots l i).length = l.countP (·.active) := by
  intro l i
  have h := congrArg List.length (collect_player_slots_players l i)
  simpa [← List.countP_eq_length_filter] using h

theorem snapshot_bullet_count_go_eq :
    ∀ (l : List ServerBullet) (acc : Nat), acc ≤ MAX_SYNC_BULLETS →
      snapshot_bullet_count_go l acc =
        min (acc + l.countP (·.active)) MAX_SYNC_BULLETS := by
  intro l
  induction l with
  | nil =>
    intro acc hacc
    unfold snapshot_bullet_count_go
    simp
    omega
  | cons b rest ih =>
    intro acc hacc
    unfold snapshot_bullet_count_go
    by_cases hstop : MAX_SYNC_BULLETS ≤ acc
    · have hacc50 : acc = MAX_SYNC_BULLETS := by omega
      rw [if_pos hstop]
      simp [hacc50]
    · rw [if_neg hstop]
      by_cases hb : b.active
      · rw [if_pos hb, ih (acc + 1) (by omega)]
        simp [List.countP_cons, hb]
        omega
      · rw [if_neg hb, ih acc (by omega)]
        simp [List.countP_cons, hb]

theorem snapshot_bullet_count_eq (bullets : List ServerBullet) :
    snapshot_bullet_count bullets =
      min (bullets.countP (·.active)) MAX_SYNC_BULLETS := by
  have h := snapshot_bullet_count_go_eq bullets 0
    (by simp [MAX_SYNC_BULLETS])
  simpa [snapshot_bullet_count] using h

theorem snapshot_bullet_count_le (bullets : List ServerBullet) :
    snapshot_bullet_count bullets ≤ MAX_SYNC_BULLETS := by
  rw [snapshot_bullet_count_eq]
  exact Nat.min_le_right _ _

theorem collect_included_bullets_eq :
    ∀ (l : List ServerBullet) (cap : Nat),
      collect_included_bullets l cap = (l.filter (·.active)).take cap := by
  intro l
  induction l with
  | nil => intro cap; simp [collect_included_bullets]
  | cons b rest ih =>
    intro cap
    unfold collect_included_bullets
    by_cases hcap : cap = 0
    · simp [hcap]
    · rw [if_neg hcap]
      by_cases hb : b.active
      · rw [if_pos hb]
        obtain ⟨m, rfl⟩ : ∃ m, cap = m + 1 :=
          ⟨cap - 1, by omega⟩
        simp [List.filter_cons, hb, ih]
      · rw [if_neg hb]
        simp [List.filter_cons, hb, ih]

theorem snapshot_bullets_take (server : GameServer) :
    snapshot_bullets server =
      (server.bullets.filter (·.active)).take MAX_SYNC_BULLETS := by
  rw [snapshot_bullets, collect_included_bullets_eq,
    snapshot_bullet_count_eq]
  rcases Nat.le_total (server.bullets.countP (·.active)) MAX_SYNC_BULLETS
    with h | h
  · rw [Nat.min_eq_left h]
    rw [List.take_of_length_le (by simp [← List.countP_eq_length_filter]),
      List.take_of_length_le
        (by simp only [← List.countP_eq_length_filter]; exact h)]
  · rw [Nat.min_eq_right h]

theorem snapshot_bullets_length (server : GameServer) :
    (snapshot_bullets server).length =
      snapshot_bullet_count server.bullets := by
  rw [snapshot_bullets, collect_included_bullets_eq, List.length_take,
    ← List.countP_eq_length_filter, snapshot_bullet_count_eq]
  omega

/-- C3: every modelled send site emits a 3-byte header (1-byte type, 2-byte
length) whose length field equals the exact byte size of the payload that
follows, with no padding; for the GameState snapshot built from p active
players and b included bullets the length field equals
sizeof(GameStateMsg) + p * sizeof(PlayerState) + b * sizeof(BulletState). -/
theorem game_state_message_sizes :
    ∀ (e : HostOrder) (f32 : Rat → List Nat) (server : GameServer),
      (∀ q, (f32 q).length = 4) →
      server.player_count = (server.players.countP (·.active) : Int) →
      server.players.length = MAX_PLAYERS →
      (encodeMessageHeader e (server_snapshot_header server)).length = 3 ∧
      (server_snapshot_header server).type = MSG_GAME_STATE ∧
      (server_snapshot_header server).length =
        (server_snapshot_payload e f32 server).length ∧
      (server_snapshot_payload e f32 server).length =
        sizeof_GameStateMsg +
          server.player_count.toNat * sizeof_PlayerState +
          snapshot_bullet_count server.bullets * sizeof_BulletState ∧
      (∀ ack, (ack_message ack).1.length = (ack_message ack).2.length) ∧
      (∀ m, (input_message e m).1.length = (input_message e m).2.length) ∧
      (∀ m, (connect_message m).1.length = (connect_message m).2.length) ∧
      (∀ m, (pong_message e m).1.length = (pong_message e m).2.length) := by
  intro e f32 server hf hcount hlen
  have hp : (snapshot_players server).length =
      server.player_count.toNat := by
    rw [snapshot_players, collect_player_slots_length, hcount]
    simp
  have hpay : (server_snapshot_payload e f32 server).length =
      sizeof_GameStateMsg +
        server.player_count.toNat * sizeof_PlayerState +
        snapshot_bullet_count server.bullets * sizeof_BulletState := by
    rw [server_snapshot_payload, List.length_append, List.length_append,
      encodeGameStateMsg_length,
      flatMap_const_length _ sizeof_PlayerState
        (fun ip => encodePlayerState_length e f32 hf _),
      flatMap_const_length _ sizeof_BulletState
        (fun b => encodeBulletState_length e f32 hf _),
      hp, snapshot_bullets_length]
  have hplt : server.player_count.toNat ≤ 4 := by
    have hc : server.players.countP (·.active) ≤ 4 := by
      have hcl := List.countP_le_length (p := (·.active))
        (l := server.players)
      rw [hlen] at hcl
      simpa [MAX_PLAYERS] using hcl
    rw [hcount]
    simpa using hc
  have hb : snapshot_bullet_count server.bullets ≤ 50 := by
    have hble := snapshot_bullet_count_le server.bullets
    simpa [MAX_SYNC_BULLETS] using hble
  have hsize : sizeof_GameStateMsg +
      server.player_count.toNat * sizeof_PlayerState +
      snapshot_bullet_count server.bullets * sizeof_BulletState < 65536 := by
    simp only [sizeof_GameStateMsg, sizeof_PlayerState, sizeof_BulletState]
    omega
  refine ⟨by rw [encodeMessageHeader_length]; rfl, rfl, ?_, hpay, ?_, ?_,
    ?_, ?_⟩
  · show (sizeof_GameStateMsg +
        server.player_count.toNat * sizeof_PlayerState +
        snapshot_bullet_count server.bullets * sizeof_BulletState) % 65536 =
      (server_snapshot_payload e f32 server).length
    rw [Nat.mod_eq_of_lt hsize, hpay]
  · intro ack
    simp [ack_message, encodeConnectAckMsg, sizeof_ConnectAckMsg]
  · intro m
    simp [input_message, encodePlayerInputMsg, bytesU32_length,
      sizeof_PlayerInputMsg]
  · intro m
    simp [connect_message, encodeConnectMsg, sizeof_ConnectMsg]
  · intro m
    simp [pong_message, encodePongMsg, bytesU32_length, sizeof_PongMsg]

/-- Witness for C3: on a concrete 1-player 0-bullet server, the header's
length field equals the payload byte count. -/
theorem game_state_message_sizes_witness :
    (server_snapshot_header demoSnapshotServer).length =
      (server_snapshot_payload HostOrder.little demoF32
        demoSnapshotServer).length :=
  (game_state_message_sizes HostOrder.little demoF32 demoSnapshotServer
    (fun _ => rfl) (by decide) (by decide)).2.2.1

/-- C2 counterexample: the byte sequence the code produces for one and the
same PlayerInput message differs between a big-endian and a little-endian
sending host (the 32-bit sequence field is memcpy'd in host order; there is
no htonl in the code), refuting the claim that the bytes are identical on
all hosts. -/
theorem wire_bytes_depend_on_host_order :
    encodePlayerInputMsg HostOrder.big
        { player_id := 1, input_flags := 0, weapon_type := 0,
          sequence := 5 } = [1, 0, 0, 0, 0, 0, 5] ∧
    encodePlayerInputMsg HostOrder.little
        { player_id := 1, input_flags := 0, weapon_type := 0,
          sequence := 5 } = [1, 0, 0, 5, 0, 0, 0] ∧
    encodePlayerInputMsg HostOrder.big
        { player_id := 1, input_flags := 0, weapon_type := 0,
          sequence := 5 } ≠
      encodePlayerInputMsg HostOrder.little
        { player_id := 1, input_flags := 0, weapon_type := 0,
          sequence := 5 } := by
  refine ⟨by decide, by decide, by decide⟩

theorem take_chunk {α : Type} (l1 l2 : List α) (n : Nat)
    (h : l1.length = n) : (l1 ++ l2).take n = l1 := by
  rw [← h]
  exact List.take_left l1 l2

theorem drop_chunk {α : Type} (l1 l2 : List α) (n : Nat)
    (h : l1.length = n) : (l1 ++ l2).drop n = l2 := by
  rw [← h]
  exact List.drop_left l1 l2

theorem drop_chunk_add {α : Type} :
    ∀ (l1 l2 : List α) (n k : Nat), l1.length = n →
      (l1 ++ l2).drop (n + k) = l2.drop k := by
  intro l1
  induction l1 with
  | nil =>
    intro l2 n k h
    simp at h
    subst h
    simp
  | cons x xs ih =>
    intro l2 n k h
    cases n with
    | zero => simp at h
    | succ m =>
      have hm : xs.length = m := by simpa using h
      have harith : m + 1 + k = (m + k) + 1 := by omega
      rw [List.cons_append, harith, List.drop_succ_cons, ih l2 m k hm]

theorem bytesI16_length (e : HostOrder) (z : Int) :
    (bytesI16 e z).length = 2 := by
  rw [bytesI16, bytesU16_length]

/-- C2 amended: each message either endpoint emits is the packed struct's
bytes — every field at a fixed offset, total size the literal sum of the
field sizes, no padding — for the MessageHeader, PlayerInput, the
GameState snapshot's fixed part (tick and acknowledged sequence) and its
PlayerState and BulletState records, Pong, Connect and ConnectAck alike.
Each multi-byte numeric field (the 16-bit header length, every 32-bit
field, the 16-bit health, the 4-byte float images) sits at its fixed
offset in the byte order of the sending host, so the byte sequence for a
given message is identical across hosts of equal endianness, while big-
and little-endian hosts write mirror-image multi-byte fields and so
produce different byte sequences. -/
theorem packed_struct_fixed_offsets :
    ∀ (e : HostOrder) (f32 : Rat → List Nat),
      (∀ q, (f32 q).length = 4) →
      (∀ h : MessageHeader,
        (encodeMessageHeader e h).length = sizeof_MessageHeader ∧
        (encodeMessageHeader e h).getD 0 0 = h.type % 256 ∧
        (encodeMessageHeader e h).drop 1 = bytesU16 e h.length) ∧
      (∀ m : PlayerInputMsg,
        (encodePlayerInputMsg e m).length = sizeof_PlayerInputMsg ∧
        (encodePlayerInputMsg e m).take 3 =
          [m.player_id % 256, m.input_flags % 256, m.weapon_type % 256] ∧
        (encodePlayerInputMsg e m).drop 3 = bytesU32 e m.sequence) ∧
      (∀ g : GameStateMsg,
        (encodeGameStateMsg e g).length = sizeof_GameStateMsg ∧
        (encodeGameStateMsg e g).take 4 = bytesU32 e g.tick ∧
        ((encodeGameStateMsg e g).drop 4).take 4 =
          bytesU32 e g.your_sequence ∧
        (encodeGameStateMsg e g).drop 8 =
          [g.player_count % 256, g.bullet_count % 256]) ∧
      (∀ m : PongMsg,
        (encodePongMsg e m).length = sizeof_PongMsg ∧
        (encodePongMsg e m).take 4 = bytesU32 e m.client_timestamp ∧
        (encodePongMsg e m).drop 4 = bytesU32 e m.server_timestamp) ∧
      (∀ m : ConnectMsg,
        (encodeConnectMsg m).length = sizeof_ConnectMsg ∧
        (encodeConnectMsg m).getD 0 0 = m.version % 256) ∧
      (∀ m : ConnectAckMsg,
        encodeConnectAckMsg m =
          [m.success % 256, m.player_id % 256, m.reason % 256]) ∧
      (∀ p : PlayerState,
        (encodePlayerState e f32 p).length = sizeof_PlayerState ∧
        (encodePlayerState e f32 p).getD 0 0 = p.player_id % 256 ∧
        ((encodePlayerState e f32 p).drop 1).take 4 = f32 p.x ∧
        ((encodePlayerState e f32 p).drop 5).take 4 = f32 p.y ∧
        ((encodePlayerState e f32 p).drop 9).take 4 = f32 p.vx ∧
        ((encodePlayerState e f32 p).drop 13).take 4 = f32 p.vy ∧
        ((encodePlayerState e f32 p).drop 17).take 2 =
          bytesI16 e p.health ∧
        (encodePlayerState e f32 p).drop 19 =
          [p.weapon % 256, p.flags % 256]) ∧
      (∀ b : BulletState,
        (encodeBulletState e f32 b).length = sizeof_BulletState ∧
        (encodeBulletState e f32 b).getD 0 0 = b.owner_id % 256 ∧
        ((encodeBulletState e f32 b).drop 1).take 4 = f32 b.x ∧
        ((encodeBulletState e f32 b).drop 5).take 4 = f32 b.y ∧
        ((encodeBulletState e f32 b).drop 9).take 4 = f32 b.vx ∧
        ((encodeBulletState e f32 b).drop 13).take 4 = f32 b.vy ∧
        (encodeBulletState e f32 b).drop 17 = [b.weapon_type % 256]) ∧
      (∀ e2 : HostOrder, e = e2 →
        (∀ h : MessageHeader,
          encodeMessageHeader e h = encodeMessageHeader e2 h) ∧
        (∀ m : PlayerInputMsg,
          encodePlayerInputMsg e m = encodePlayerInputMsg e2 m) ∧
        (∀ m : PongMsg, encodePongMsg e m = encodePongMsg e2 m) ∧
        (∀ server : GameServer,
          server_snapshot_payload e f32 server =
            server_snapshot_payload e2 f32 server)) ∧
      (∀ n : Nat,
        (bytesU16 HostOrder.big n).reverse = bytesU16 HostOrder.little n ∧
        (bytesU32 HostOrder.big n).reverse = bytesU32 HostOrder.little n) ∧
      (∃ m : PlayerInputMsg,
        encodePlayerInputMsg HostOrder.big m ≠
          encodePlayerInputMsg HostOrder.little m) ∧
      (∃ g : GameStateMsg,
        encodeGameStateMsg HostOrder.big g ≠
          encodeGameStateMsg HostOrder.little g) := by
  intro e f32 hf
  refine ⟨fun h => ⟨encodeMessageHeader_length e h,
      by simp [encodeMessageHeader], by simp [encodeMessageHeader]⟩,
    fun m => ⟨by simp [encodePlayerInputMsg, bytesU32_length,
        sizeof_PlayerInputMsg],
      by simp [encodePlayerInputMsg], by simp [encodePlayerInputMsg]⟩,
    fun g => ?_, fun m => ?_,
    fun m => ⟨by simp [encodeConnectMsg, sizeof_ConnectMsg],
      by simp [encodeConnectMsg]⟩,
    fun m => rfl,
    fun p => ?_, fun b => ?_,
    fun e2 he => by
      subst he
      exact ⟨fun h => rfl, fun m => rfl, fun m => rfl, fun s => rfl⟩,
    fun n => ⟨by simp [bytesU16], by simp [bytesU32]⟩,
    ⟨{ player_id := 1, input_flags := 0, weapon_type := 0, sequence := 5 },
      by decide⟩,
    ⟨{ tick := 5, your_sequence := 0, player_count := 0,
       bullet_count := 0 }, by decide⟩⟩
  · -- GameStateMsg: tick at offset 0, acknowledged sequence at offset 4
    have hg : encodeGameStateMsg e g = bytesU32 e g.tick ++
        (bytesU32 e g.your_sequence ++
          [g.player_count % 256, g.bullet_count % 256]) := by
      rw [encodeGameStateMsg, List.append_assoc]
    refine ⟨encodeGameStateMsg_length e g, ?_, ?_, ?_⟩
    · rw [hg, take_chunk _ _ 4 (bytesU32_length e g.tick)]
    · rw [hg, drop_chunk _ _ 4 (bytesU32_length e g.tick),
        take_chunk _ _ 4 (bytesU32_length e g.your_sequence)]
    · rw [hg, show (8 : Nat) = 4 + 4 from rfl,
        drop_chunk_add _ _ 4 4 (bytesU32_length e g.tick),
        drop_chunk _ _ 4 (bytesU32_length e g.your_sequence)]
  · -- PongMsg: the two 32-bit timestamps at offsets 0 and 4
    refine ⟨by simp [encodePongMsg, bytesU32_length, sizeof_PongMsg],
      ?_, ?_⟩
    · simp only [encodePongMsg]
      rw [take_chunk _ _ 4 (bytesU32_length e m.client_timestamp)]
    · simp only [encodePongMsg]
      rw [drop_chunk _ _ 4 (bytesU32_length e m.client_timestamp)]
  · -- PlayerState: id, x, y, vx, vy, health, weapon, flags at offsets
    -- 0, 1, 5, 9, 13, 17, 19, 20
    have hd : encodePlayerState e f32 p = [p.player_id % 256] ++
        (f32 p.x ++ (f32 p.y ++ (f32 p.vx ++ (f32 p.vy ++
          (bytesI16 e p.health ++
            [p.weapon % 256, p.flags % 256]))))) := by
      simp [encodePlayerState, List.append_assoc]
    refine ⟨encodePlayerState_length e f32 hf p,
      by simp [encodePlayerState], ?_, ?_, ?_, ?_, ?_, ?_⟩
    · rw [hd, drop_chunk [p.player_id % 256] _ 1 rfl, take_chunk _ _ 4 (hf p.x)]
    · rw [hd, show (5 : Nat) = 1 + 4 from rfl,
        drop_chunk_add [p.player_id % 256] _ 1 4 rfl, drop_chunk _ _ 4 (hf p.x),
        take_chunk _ _ 4 (hf p.y)]
    · rw [hd, show (9 : Nat) = 1 + 8 from rfl,
        drop_chunk_add [p.player_id % 256] _ 1 8 rfl, show (8 : Nat) = 4 + 4 from rfl,
        drop_chunk_add _ _ 4 4 (hf p.x), drop_chunk _ _ 4 (hf p.y),
        take_chunk _ _ 4 (hf p.vx)]
    · rw [hd, show (13 : Nat) = 1 + 12 from rfl,
        drop_chunk_add [p.player_id % 256] _ 1 12 rfl, show (12 : Nat) = 4 + 8 from rfl,
        drop_chunk_add _ _ 4 8 (hf p.x), show (8 : Nat) = 4 + 4 from rfl,
        drop_chunk_add _ _ 4 4 (hf p.y), drop_chunk _ _ 4 (hf p.vx),
        take_chunk _ _ 4 (hf p.vy)]
    · rw [hd, show (17 : Nat) = 1 + 16 from rfl,
        drop_chunk_add [p.player_id % 256] _ 1 16 rfl, show (16 : Nat) = 4 + 12 from rfl,
        drop_chunk_add _ _ 4 12 (hf p.x),
        show (12 : Nat) = 4 + 8 from rfl,
        drop_chunk_add _ _ 4 8 (hf p.y), show (8 : Nat) = 4 + 4 from rfl,
        drop_chunk_add _ _ 4 4 (hf p.vx), drop_chunk _ _ 4 (hf p.vy),
        take_chunk _ _ 2 (bytesI16_length e p.health)]
    · rw [hd, show (19 : Nat) = 1 + 18 from rfl,
        drop_chunk_add [p.player_id % 256] _ 1 18 rfl, show (18 : Nat) = 4 + 14 from rfl,
        drop_chunk_add _ _ 4 14 (hf p.x),
        show (14 : Nat) = 4 + 10 from rfl,
        drop_chunk_add _ _ 4 10 (hf p.y),
        show (10 : Nat) = 4 + 6 from rfl,
        drop_chunk_add _ _ 4 6 (hf p.vx), show (6 : Nat) = 4 + 2 from rfl,
        drop_chunk_add _ _ 4 2 (hf p.vy),
        drop_chunk _ _ 2 (bytesI16_length e p.health)]
  · -- BulletState: owner, x, y, vx, vy, weapon at offsets 0, 1, 5, 9,
    -- 13, 17
    have hd : encodeBulletState e f32 b = [b.owner_id % 256] ++
        (f32 b.x ++ (f32 b.y ++ (f32 b.vx ++ (f32 b.vy ++
          [b.weapon_type % 256])))) := by
      simp [encodeBulletState, List.append_assoc]
    refine ⟨encodeBulletState_length e f32 hf b,
      by simp [encodeBulletState], ?_, ?_, ?_, ?_, ?_⟩
    · rw [hd, drop_chunk [b.owner_id % 256] _ 1 rfl, take_chunk _ _ 4 (hf b.x)]
    · rw [hd, show (5 : Nat) = 1 + 4 from rfl,
        drop_chunk_add [b.owner_id % 256] _ 1 4 rfl, drop_chunk _ _ 4 (hf b.x),
        take_chunk _ _ 4 (hf b.y)]
    · rw [hd, show (9 : Nat) = 1 + 8 from rfl,
        drop_chunk_add [b.owner_id % 256] _ 1 8 rfl, show (8 : Nat) = 4 + 4 from rfl,
        drop_chunk_add _ _ 4 4 (hf b.x), drop_chunk _ _ 4 (hf b.y),
        take_chunk _ _ 4 (hf b.vx)]
    · rw [hd, show (13 : Nat) = 1 + 12 from rfl,
        drop_chunk_add [b.owner_id % 256] _ 1 12 rfl, show (12 : Nat) = 4 + 8 from rfl,
        drop_chunk_add _ _ 4 8 (hf b.x), show (8 : Nat) = 4 + 4 from rfl,
        drop_chunk_add _ _ 4 4 (hf b.y), drop_chunk _ _ 4 (hf b.vx),
        take_chunk _ _ 4 (hf b.vy)]
    · rw [hd, show (17 : Nat) = 1 + 16 from rfl,
        drop_chunk_add [b.owner_id % 256] _ 1 16 rfl, show (16 : Nat) = 4 + 12 from rfl,
        drop_chunk_add _ _ 4 12 (hf b.x),
        show (12 : Nat) = 4 + 8 from rfl,
        drop_chunk_add _ _ 4 8 (hf b.y), show (8 : Nat) = 4 + 4 from rfl,
        drop_chunk_add _ _ 4 4 (hf b.vx), drop_chunk _ _ 4 (hf b.vy)]

/-- Witness for the amended C2: on a little-endian host with a concrete
4-byte float image, the snapshot tick occupies offsets 0-3 of the encoded
GameStateMsg. -/
theorem packed_struct_fixed_offsets_witness :
    (encodeGameStateMsg HostOrder.little
        { tick := 7, your_sequence := 9, player_count := 2,
          bullet_count := 1 }).take 4 = bytesU32 HostOrder.little 7 :=
  ((packed_struct_fixed_offsets HostOrder.little demoF32
      (fun _ => rfl)).2.2.1
    { tick := 7, your_sequence := 9, player_count := 2,
      bullet_count := 1 }).2.1

theorem broadcast_go_spec (sendOk : Nat → Bool) (j : Nat)
    (hok : ∀ i, i ≠ j → sendOk i = true) :
    ∀ (l : List ServerPlayer) (s : Nat) (cnt : Int),
      (broadcast_go sendOk l s cnt).1.length = l.length ∧
      (∀ k, k < l.length → s + k ≠ j →
        (broadcast_go sendOk l s cnt).1.getD k default =
          l.getD k default) ∧
      (∀ k, k < l.length → s + k ≠ j →
        (l.getD k default).active = true →
        (s + k, (l.getD k default).last_sequence) ∈
          (broadcast_go sendOk l s cnt).2.2) ∧
      (∀ k, k < l.length → s + k = j → sendOk j = false →
        (l.getD k default).active = true →
        (broadcast_go sendOk l s cnt).1.getD k default =
          { l.getD k default with active := false } ∧
        (broadcast_go sendOk l s cnt).2.1 = cnt - 1) ∧
      ((∀ k, k < l.length → s + k = j →
          (l.getD k default).active = true → sendOk j = true) →
        (broadcast_go sendOk l s cnt).2.1 = cnt) := by
  intro l
  induction l with
  | nil =>
    intro s cnt
    refine ⟨rfl, ?_, ?_, ?_, fun _ => rfl⟩ <;> intro k hk <;> simp at hk
  | cons p rest ih =>
    intro s cnt
    by_cases hp : p.active
    · by_cases hs : sendOk s = true
      · -- active slot, send succeeds
        have hgo : broadcast_go sendOk (p :: rest) s cnt =
            (p :: (broadcast_go sendOk rest (s + 1) cnt).1,
             (broadcast_go sendOk rest (s + 1) cnt).2.1,
             (s, p.last_sequence) ::
               (broadcast_go sendOk rest (s + 1) cnt).2.2) := by
          simp only [broadcast_go]
          rw [if_pos hp, if_pos hs]
        obtain ⟨ih1, ih2, ih3, ih4, ih5⟩ := ih (s + 1) cnt
        rw [hgo]
        refine ⟨by simpa using ih1, ?_, ?_, ?_, ?_⟩
        · intro k hk hkj
          cases k with
          | zero => simp
          | succ m =>
            have hm : m < rest.length := by simpa using hk
            simpa using ih2 m hm (by omega)
        · intro k hk hkj hka
          cases k with
          | zero => simp
          | succ m =>
            have hm : m < rest.length := by simpa using hk
            have h3 := ih3 m hm (by omega) (by simpa using hka)
            simp only [List.getD_cons_succ, List.mem_cons]
            right
            have harith : s + (m + 1) = s + 1 + m := by omega
            rw [harith]
            exact h3
        · intro k hk hkj hfail hka
          cases k with
          | zero =>
            exfalso
            have hsj : s = j := by omega
            rw [← hsj, hs] at hfail
            exact Bool.noConfusion hfail
          | succ m =>
            have hm : m < rest.length := by simpa using hk
            have h4 := ih4 m hm (by omega) hfail (by simpa using hka)
            simpa using h4
        · intro hnone
          refine ih5 ?_
          intro k hk hkj hka
          exact hnone (k + 1) (by simpa using hk) (by omega)
            (by simpa using hka)
      · -- active slot, send fails: hok forces s = j
        have hsj : s = j := by
          by_contra hne
          exact hs (hok s hne)
        have hgo : broadcast_go sendOk (p :: rest) s cnt =
            ({ p with active := false } ::
               (broadcast_go sendOk rest (s + 1) (cnt - 1)).1,
             (broadcast_go sendOk rest (s + 1) (cnt - 1)).2.1,
             (broadcast_go sendOk rest (s + 1) (cnt - 1)).2.2) := by
          simp only [broadcast_go]
          rw [if_pos hp, if_neg hs]
        obtain ⟨ih1, ih2, ih3, ih4, ih5⟩ := ih (s + 1) (cnt - 1)
        rw [hgo]
        refine ⟨by simpa using ih1, ?_, ?_, ?_, ?_⟩
        · intro k hk hkj
          cases k with
          | zero => omega
          | succ m =>
            have hm : m < rest.length := by simpa using hk
            simpa using ih2 m hm (by omega)
        · intro k hk hkj hka
          cases k with
          | zero => omega
          | succ m =>
            have hm : m < rest.length := by simpa using hk
            have h3 := ih3 m hm (by omega) (by simpa using hka)
            simp only [List.getD_cons_succ]
            have harith : s + (m + 1) = s + 1 + m := by omega
            rw [harith]
            exact h3
        · intro k hk hkj hfail hka
          cases k with
          | zero =>
            refine ⟨by simp, ?_⟩
            refine ih5 ?_
            intro m hm hmj hma
            exact absurd hmj (by omega)
          | succ m => omega
        · intro hnone
          exfalso
          have hj0 := hnone 0 (by simp) (by omega) (by simpa using hp)
          exact hs (by rw [hsj]; exact hj0)
    · -- inactive slot: skipped entirely
      have hgo : broadcast_go sendOk (p :: rest) s cnt =
          (p :: (broadcast_go sendOk rest (s + 1) cnt).1,
           (broadcast_go sendOk rest (s + 1) cnt).2.1,
           (broadcast_go sendOk rest (s + 1) cnt).2.2) := by
        simp only [broadcast_go]
        rw [if_neg hp]
      obtain ⟨ih1, ih2, ih3, ih4, ih5⟩ := ih (s + 1) cnt
      rw [hgo]
      refine ⟨by simpa using ih1, ?_, ?_, ?_, ?_⟩
      · intro k hk hkj
        cases k with
        | zero => simp
        | succ m =>
          have hm : m < rest.length := by simpa using hk
          simpa using ih2 m hm (by omega)
      · intro k hk hkj hka
        cases k with
        | zero =>
          simp only [List.getD_cons_zero] at hka
          exact absurd hka (by simpa using hp)
        | succ m =>
          have hm : m < rest.length := by simpa using hk
          have h3 := ih3 m hm (by omega) (by simpa using hka)
          simp only [List.getD_cons_succ]
          have harith : s + (m + 1) = s + 1 + m := by omega
          rw [harith]
          exact h3
      · intro k hk hkj hfail hka
        cases k with
        | zero =>
          simp only [List.getD_cons_zero] at hka
          exact absurd hka (by simpa using hp)
        | succ m =>
          have hm : m < rest.length := by simpa using hk
          have h4 := ih4 m hm (by omega) hfail (by simpa using hka)
          simpa using h4
      · intro hnone
        refine ih5 ?_
        intro k hk hkj hka
        exact hnone (k + 1) (by simpa using hk) (by omega)
          (by simpa using hka)

/-- C5: during the broadcast, if the send to client j fails while every
other send succeeds, then only slot j is freed (active cleared, count
decremented by one); every other slot is untouched, and every other active
client still receives its copy (recorded with its own last-accepted
sequence as the per-recipient your_sequence); the loop runs to completion
over the whole table. -/
theorem send_failure_isolated :
    ∀ (server : GameServer) (sendOk : Nat → Bool) (j : Nat),
      (∀ i, i ≠ j → sendOk i = true) →
      sendOk j = false →
      j < server.players.length →
      (server.players.getD j default).active = true →
      ((server_broadcast server sendOk).1.players.length =
        server.players.length) ∧
      (∀ k, k < server.players.length → k ≠ j →
        (server_broadcast server sendOk).1.players.getD k default =
          server.players.getD k default) ∧
      (∀ k, k < server.players.length → k ≠ j →
        (server.players.getD k default).active = true →
        (k, (server.players.getD k default).last_sequence) ∈
          (server_broadcast server sendOk).2) ∧
      (server_broadcast server sendOk).1.players.getD j default =
        { server.players.getD j default with active := false } ∧
      (server_broadcast server sendOk).1.player_count =
        server.player_count - 1 := by
  intro server sendOk j hok hfail hj hact
  obtain ⟨h1, h2, h3, h4, _⟩ :=
    broadcast_go_spec sendOk j hok server.players 0 server.player_count
  have h4j := h4 j hj (by omega) hfail hact
  refine ⟨?_, ?_, ?_, ?_, ?_⟩
  · simpa [server_broadcast] using h1
  · intro k hk hkj
    have := h2 k hk (by omega)
    simpa [server_broadcast] using this
  · intro k hk hkj hka
    have := h3 k hk (by omega) hka
    simpa [server_broadcast] using this
  · simpa [server_broadcast] using h4j.1
  · simpa [server_broadcast] using h4j.2

/-- Witness for C5 at a concrete two-player server where the send to
slot 1 fails: slot 0 keeps its state and is sent its copy, and the player
count drops from 2 to 1. -/
theorem send_failure_isolated_witness :
    (server_broadcast demoBroadcastServer demoSendOk).1.players.getD 0
        default =
      demoBroadcastServer.players.getD 0 default ∧
    (0, (demoBroadcastServer.players.getD 0 default).last_sequence) ∈
      (server_broadcast demoBroadcastServer demoSendOk).2 ∧
    (server_broadcast demoBroadcastServer demoSendOk).1.player_count =
      demoBroadcastServer.player_count - 1 := by
  have h := send_failure_isolated demoBroadcastServer demoSendOk 1
    (by intro i hi; simp [demoSendOk, hi]) (by decide) (by decide)
    (by decide)
  exact ⟨h.2.1 0 (by decide) (by decide),
    h.2.2.1 0 (by decide) (by decide) (by decide), h.2.2.2.2⟩

set_option maxRecDepth 200000 in
/-- C8 counterexample: in a broadcast from cexServer, more than
MAX_SYNC_BULLETS slots are occupied, the newest live bullet (slot 0,
remaining lifetime 2) is included in the snapshot, yet an older live
bullet (slot 50, remaining lifetime 1) is excluded — so the 50 included
bullets are NOT the oldest live projectiles. -/
theorem snapshot_keeps_newer_drops_older :
    MAX_SYNC_BULLETS < cexServer.bullets.countP (·.active) ∧
    cexNewBullet ∈ snapshot_bullets cexServer ∧
    cexOldBullet ∈ cexServer.bullets ∧
    cexOldBullet.active = true ∧
    cexOldBullet ∉ snapshot_bullets cexServer ∧
    cexOldBullet.lifetime < cexNewBullet.lifetime := by
  refine ⟨by decide, by decide, by decide, rfl, by decide, ?_⟩
  show (1 : Rat) < 2
  norm_num

/-- C8 amended: every broadcast snapshot contains all active players and
at most MAX_SYNC_BULLETS (= 50) bullets; when more slots are occupied, the
included bullets are exactly the first 50 occupied slots in increasing
slot-index order — because the spawner reuses the lowest free index, these
are not necessarily the oldest live projectiles. -/
theorem snapshot_slot_order_truncation :
    ∀ server : GameServer,
      (snapshot_players server).map (·.2) =
        server.players.filter (·.active) ∧
      snapshot_bullets server =
        (server.bullets.filter (·.active)).take MAX_SYNC_BULLETS ∧
      (snapshot_bullets server).length ≤ MAX_SYNC_BULLETS := by
  intro server
  refine ⟨collect_player_slots_players server.players 0,
    snapshot_bullets_take server, ?_⟩
  rw [snapshot_bullets_take, List.length_take]
  exact Nat.min_le_left _ _

theorem countP_set_int {α : Type} [Inhabited α] (p : α → Bool) :
    ∀ (l : List α) (i : Nat) (a : α), i < l.length →
      (((l.set i a).countP p : Nat) : Int) =
        (l.countP p : Int) - (if p (l.getD i default) then 1 else 0) +
          (if p a then 1 else 0) := by
  intro l
  induction l with
  | nil => intro i a hi; simp at hi
  | cons x rest ih =>
    intro i a hi
    cases i with
    | zero =>
      simp only [List.set_cons_zero, List.countP_cons, List.getD_cons_zero]
      by_cases hx : p x <;> by_cases ha : p a <;>
        simp [hx, ha] <;> push_cast <;> omega
    | succ m =>
      have hm : m < rest.length := by simpa using hi
      simp only [List.set_cons_succ, List.countP_cons,
        List.getD_cons_succ]
      have hrec := ih m a hm
      by_cases hx : p x <;> by_cases hg : p (rest.getD m default) <;>
        by_cases ha : p a <;> simp only [hx, hg, ha, if_true, if_false,
          Bool.false_eq_true, if_pos, if_neg] at hrec ⊢ <;>
        simp [hx] <;> push_cast at hrec ⊢ <;> omega

theorem find_first_idx_spec {α : Type} [Inhabited α] (p : α → Bool) :
    ∀ (l : List α) (s i : Nat), find_first_idx p l s = some i →
      s ≤ i ∧ i - s < l.length ∧ p (l.getD (i - s) default) = true := by
  intro l
  induction l with
  | nil => intro s i h; exact absurd h (by simp [find_first_idx])
  | cons x rest ih =>
    intro s i h
    unfold find_first_idx at h
    by_cases hx : p x
    · rw [if_pos hx] at h
      obtain rfl : s = i := by simpa using h
      simp [hx]
    · rw [if_neg hx] at h
      obtain ⟨h1, h2, h3⟩ := ih (s + 1) i h
      refine ⟨by omega, by simp; omega, ?_⟩
      have harith : i - s = (i - (s + 1)) + 1 := by omega
      rw [harith]
      simpa using h3

theorem countP_set_int_dec {α : Type} [Inhabited α] (p : α → Bool)
    (l : List α) (i : Nat) (a : α) (hi : i < l.length)
    (hold : p (l.getD i default) = true) (hnew : p a = false) :
    (((l.set i a).countP p : Nat) : Int) = (l.countP p : Int) - 1 := by
  rw [countP_set_int p l i a hi, hold, hnew]
  simp

theorem countP_set_int_same {α : Type} [Inhabited α] (p : α → Bool)
    (l : List α) (i : Nat) (a : α) (hi : i < l.length)
    (hsame : p a = p (l.getD i default)) :
    (((l.set i a).countP p : Nat) : Int) = (l.countP p : Int) := by
  rw [countP_set_int p l i a hi, hsame]
  by_cases h : p (l.getD i default) = true <;> simp [h]

theorem countP_set_int_inc {α : Type} [Inhabited α] (p : α → Bool)
    (l : List α) (i : Nat) (a : α) (hi : i < l.length)
    (hold : p (l.getD i default) = false) (hnew : p a = true) :
    (((l.set i a).countP p : Nat) : Int) = (l.countP p : Int) + 1 := by
  rw [countP_set_int p l i a hi, hold, hnew]
  simp

theorem apply_player_input_active (p : ServerPlayer) (m : PlayerInputMsg) :
    (apply_player_input p m).active = p.active := by
  unfold apply_player_input
  split <;> rfl

theorem fire_step_active (p : ServerPlayer) (dt : Rat) :
    (fire_step p dt).1.active = p.active := by
  unfold fire_step
  split <;> rfl

theorem update_bullet_active (b : ServerBullet) (dt : Rat) :
    (update_bullet b dt).active = b.active := rfl

theorem free_slot_preserves_counts (server : GameServer) (i : Nat)
    (hi : i < server.players.length)
    (hact : (server.players.getD i default).active = true)
    (hinv : ServerCountsInv server) :
    ServerCountsInv (server_free_slot server i) := by
  obtain ⟨h1, h2⟩ := hinv
  refine ⟨?_, h2⟩
  show server.player_count - 1 = _
  simp only [server_free_slot]
  rw [countP_set_int_dec _ server.players i _ hi hact rfl, h1]

theorem handle_client_message_preserves_counts
    (server : GameServer) (player_id : Nat) (ev : ClientEvent)
    (hinv : ServerCountsInv server) :
    ServerCountsInv (server_handle_client_message server player_id ev) := by
  unfold server_handle_client_message
  by_cases hact : (server.players.getD player_id default).active = true
  · have hi : player_id < server.players.length := by
      by_contra hge
      rw [List.getD_eq_default _ _ (by omega)] at hact
      exact absurd hact (by decide)
    rw [if_neg (by rw [hact]; decide)]
    cases ev with
    | recvClosed =>
      exact free_slot_preserves_counts server player_id hi hact hinv
    | recvErr =>
      exact free_slot_preserves_counts server player_id hi hact hinv
    | disconnect =>
      exact free_slot_preserves_counts server player_id hi hact hinv
    | recvNoData => exact hinv
    | recvPartialHeader => exact hinv
    | ping ts => exact hinv
    | unknown t => exact hinv
    | input m =>
      obtain ⟨h1, h2⟩ := hinv
      refine ⟨?_, h2⟩
      show server.player_count = _
      rw [countP_set_int_same _ server.players player_id _ hi
        (by rw [apply_player_input_active]), h1]
  · have hact2 : (server.players.getD player_id default).active = false := by
      simpa using hact
    rw [if_pos (by rw [hact2]; decide)]
    exact hinv

theorem spawn_single_preserves_counts (server : GameServer)
    (player_id : Nat) (x y vx vy : Rat) (w : Nat)
    (hinv : ServerCountsInv server) :
    ServerCountsInv
      (server_spawn_single_bullet server player_id x y vx vy w) := by
  unfold server_spawn_single_bullet
  cases hfind : server_find_free_bullet server.bullets with
  | none => exact hinv
  | some slot =>
    obtain ⟨-, hlt, hfree⟩ :=
      find_first_idx_spec (fun b => !b.active) server.bullets 0 slot
        (by simpa [server_find_free_bullet] using hfind)
    simp only [Nat.sub_zero] at hlt hfree
    have hinact : (server.bullets.getD slot default).active = false := by
      simpa using hfree
    obtain ⟨h1, h2⟩ := hinv
    refine ⟨h1, ?_⟩
    show server.bullet_count + 1 = _
    rw [countP_set_int_inc _ server.bullets slot _ hlt hinact rfl, h2]

theorem spawn_single_players (server : GameServer)
    (player_id : Nat) (x y vx vy : Rat) (w : Nat) :
    (server_spawn_single_bullet server player_id x y vx vy w).players =
      server.players := by
  unfold server_spawn_single_bullet
  cases server_find_free_bullet server.bullets <;> rfl

theorem spawn_bullet_preserves_counts (sin15 cos15 : Rat)
    (server : GameServer) (player_id : Nat) (x y : Rat)
    (hinv : ServerCountsInv server) :
    ServerCountsInv
      (server_spawn_bullet sin15 cos15 server player_id x y) := by
  simp only [server_spawn_bullet]
  split
  · exact spawn_single_preserves_counts _ _ _ _ _ _ _
      (spawn_single_preserves_counts _ _ _ _ _ _ _
        (spawn_single_preserves_counts _ _ _ _ _ _ _ hinv))
  · split
    · exact spawn_single_preserves_counts _ _ _ _ _ _ _ hinv
    · split
      · exact spawn_single_preserves_counts _ _ _ _ _ _ _ hinv
      · exact spawn_single_preserves_counts _ _ _ _ _ _ _ hinv

theorem spawn_bullet_players (sin15 cos15 : Rat) (server : GameServer)
    (player_id : Nat) (x y : Rat) :
    (server_spawn_bullet sin15 cos15 server player_id x y).players =
      server.players := by
  simp only [server_spawn_bullet]
  split
  · simp [spawn_single_players]
  · split
    · simp [spawn_single_players]
    · split
      · simp [spawn_single_players]
      · simp [spawn_single_players]

theorem fire_player_step_preserves (sin15 cos15 dt : Rat)
    (s : GameServer) (i : Nat) (hinv : ServerCountsInv s) :
    ServerCountsInv (fire_player_step sin15 cos15 dt s i) := by
  unfold fire_player_step
  by_cases hact : (s.players.getD i default).active = true
  · have hi : i < s.players.length := by
      by_contra hge
      rw [List.getD_eq_default _ _ (by omega)] at hact
      exact absurd hact (by decide)
    rw [if_neg (by rw [hact]; decide)]
    by_cases hfired : (fire_step (s.players.getD i default) dt).2 = true
    · rw [if_pos hfired]
      obtain ⟨h1, h2⟩ := spawn_bullet_preserves_counts sin15 cos15 s i
        (s.players.getD i default).x (s.players.getD i default).y hinv
      refine ⟨?_, h2⟩
      show (server_spawn_bullet sin15 cos15 s i
        (s.players.getD i default).x (s.players.getD i default).y).player_count = _
      rw [countP_set_int_same _ _ i _
        (by rw [spawn_bullet_players]; exact hi)
        (by rw [fire_step_active, spawn_bullet_players]), h1]
    · rw [if_neg hfired]
      obtain ⟨h1, h2⟩ := hinv
      refine ⟨?_, h2⟩
      show s.player_count = _
      rw [countP_set_int_same _ s.players i _ hi
        (by rw [fire_step_active]), h1]
  · have hact2 : (s.players.getD i default).active = false := by
      simpa using hact
    rw [if_pos (by rw [hact2]; decide)]
    exact hinv

theorem foldl_preserves {β : Type} (f : GameServer → β → GameServer)
    (P : GameServer → Prop) (hf : ∀ s b, P s → P (f s b)) :
    ∀ (l : List β) (s : GameServer), P s → P (l.foldl f s) := by
  intro l
  induction l with
  | nil => intro s hs; exact hs
  | cons b rest ih =>
    intro s hs
    rw [List.foldl_cons]
    exact ih _ (hf s b hs)

theorem handle_firing_preserves_counts (sin15 cos15 : Rat)
    (server : GameServer) (dt : Rat) (hinv : ServerCountsInv server) :
    ServerCountsInv (server_handle_firing sin15 cos15 server dt) := by
  unfold server_handle_firing
  exact foldl_preserves _ ServerCountsInv
    (fire_player_step_preserves sin15 cos15 dt) _ server hinv

theorem update_bullets_go_count (dt : Rat) :
    ∀ l : List ServerBullet,
      ((server_update_bullets_go dt l).1.countP (·.active) : Int) =
        (l.countP (·.active) : Int) - (server_update_bullets_go dt l).2 := by
  intro l
  induction l with
  | nil => simp [server_update_bullets_go]
  | cons b rest ih =>
    simp only [server_update_bullets_go]
    by_cases hb : b.active = true
    · rw [if_neg (by simp [hb])]
      by_cases hexp : bullet_expired (update_bullet b dt)
      · rw [if_pos hexp]
        simp only [List.countP_cons]
        simp [hb]
        push_cast at ih ⊢
        omega
      · rw [if_neg hexp]
        simp only [List.countP_cons]
        simp [hb, update_bullet]
        push_cast at ih ⊢
        omega
    · have hb2 : b.active = false := by simpa using hb
      rw [if_pos (by simp [hb2])]
      simp only [List.countP_cons]
      simp [hb2]
      push_cast at ih ⊢
      omega

theorem update_bullets_preserves_counts (server : GameServer) (dt : Rat)
    (hinv : ServerCountsInv server) :
    ServerCountsInv (server_update_bullets server dt) := by
  obtain ⟨h1, h2⟩ := hinv
  refine ⟨h1, ?_⟩
  simp only [server_update_bullets]
  rw [update_bullets_go_count, h2]

theorem process_connect_preserves_counts (server : GameServer)
    (sock : Nat) (msg : ConnectMsg) (hinv : ServerCountsInv server) :
    ServerCountsInv (server_process_connect server sock msg).1 := by
  unfold server_process_connect
  by_cases hv : msg.version ≠ PROTOCOL_VERSION
  · rw [if_pos hv]
    exact hinv
  · rw [if_neg hv]
    cases hfind : server_find_free_slot server.players with
    | none => exact hinv
    | some slot =>
      obtain ⟨-, hlt, hfree⟩ :=
        find_first_idx_spec (fun p => !p.active) server.players 0 slot
          (by simpa [server_find_free_slot] using hfind)
      simp only [Nat.sub_zero] at hlt hfree
      have hinact : (server.players.getD slot default).active = false := by
        simpa using hfree
      obtain ⟨h1, h2⟩ := hinv
      refine ⟨?_, h2⟩
      show server.player_count + 1 = _
      rw [countP_set_int_inc _ server.players slot _ hlt hinact rfl, h1]

theorem broadcast_go_count (sendOk : Nat → Bool) :
    ∀ (l : List ServerPlayer) (s : Nat) (cnt : Int),
      (broadcast_go sendOk l s cnt).2.1 + (l.countP (·.active) : Int) =
        cnt + ((broadcast_go sendOk l s cnt).1.countP (·.active) : Int) := by
  intro l
  induction l with
  | nil => intro s cnt; simp [broadcast_go]
  | cons p rest ih =>
    intro s cnt
    simp only [broadcast_go]
    by_cases hp : p.active = true
    · rw [if_pos hp]
      by_cases hs : sendOk s = true
      · rw [if_pos hs]
        have hrec := ih (s + 1) cnt
        simp only [List.countP_cons]
        simp [hp]
        push_cast at hrec ⊢
        omega
      · rw [if_neg hs]
        have hrec := ih (s + 1) (cnt - 1)
        simp only [List.countP_cons]
        simp [hp]
        push_cast at hrec ⊢
        omega
    · rw [if_neg hp]
      have hp2 : p.active = false := by simpa using hp
      have hrec := ih (s + 1) cnt
      simp only [List.countP_cons]
      simp [hp2]
      push_cast at hrec ⊢
      omega

theorem broadcast_preserves_counts (server : GameServer)
    (sendOk : Nat → Bool) (hinv : ServerCountsInv server) :
    ServerCountsInv (server_broadcast server sendOk).1 := by
  obtain ⟨h1, h2⟩ := hinv
  refine ⟨?_, h2⟩
  have hgo := broadcast_go_count sendOk server.players 0 server.player_count
  simp only [server_broadcast]
  omega

set_option maxRecDepth 200000 in
/-- C10: server_init establishes the player half of the count invariant
(players zeroed, player_count = 0) but leaves bullets[] and bullet_count
exactly as they were in the pre-state — so on a pre-state whose
indeterminate bullet fields disagree (bullet_count = 7, no bullet slot
occupied) the claimed invariant does NOT hold in the initial server state.
(Each individual operation does preserve the invariant; see the
*_preserves_counts lemmas.) -/
theorem server_init_breaks_bullet_invariant :
    (∀ pre : GameServer,
      (server_init pre).bullets = pre.bullets ∧
      (server_init pre).bullet_count = pre.bullet_count ∧
      (server_init pre).player_count =
        (((server_init pre).players.countP (·.active) : Nat) : Int)) ∧
    ¬ ServerCountsInv (server_init garbageStartServer) := by
  constructor
  · intro pre
    refine ⟨rfl, rfl, ?_⟩
    show (0 : Int) =
      (((List.replicate MAX_PLAYERS zeroServerPlayer).countP
        (·.active) : Nat) : Int)
    decide
  · intro h
    exact absurd h.2 (by decide)
